import Mathlib

/-!
Shallow embedding of the vintage-product-manager repository
(src/models/product.py and src/services/sheets_product_repository.py).

Strings are modelled as Lean `String`s; the Python helpers that matter to
the claims (str.strip, str.lower, int(...) parsing, f-string zero padding,
date.isoformat, datetime.strptime with format %Y-%m-%d) are embedded as
executable functions on character lists.  Python's `\d` character class is
modelled as the ASCII digits, and str.strip's whitespace set as the ASCII
whitespace characters; no claim depends on the non-ASCII members of those
classes.
-/

/-- ASCII decimal digit test, the model of the regex class `\d`. -/
def isDigitCh (c : Char) : Bool := decide ('0' ≤ c) && decide (c ≤ '9')

/-- The decimal digit characters, used to render numbers the way Python
`str`/f-strings do. -/
def digitToCh : Nat → Char
  | 0 => '0' | 1 => '1' | 2 => '2' | 3 => '3' | 4 => '4'
  | 5 => '5' | 6 => '6' | 7 => '7' | 8 => '8' | 9 => '9'
  | _ => '*'

/-- Numeric value of a digit character. -/
def chVal (c : Char) : Nat := c.toNat - 48

/-- Value of a big-endian digit string (the value Python's `int` assigns to
a string of decimal digits). -/
def chainVal (cs : List Char) : Nat := cs.foldl (fun a c => 10 * a + chVal c) 0

/-- Big-endian decimal digit characters of `n` (empty for 0); the `fuel`
argument only drives the recursion and any `fuel ≥ n` gives the digits. -/
def natChars : Nat → Nat → List Char
  | 0, _ => []
  | fuel + 1, n => if n = 0 then [] else natChars fuel (n / 10) ++ [digitToCh (n % 10)]

/-- Characters of Python `str(n)` for a natural number. -/
def natStrChars (n : Nat) : List Char := if n = 0 then ['0'] else natChars n n

/-- Characters of the f-string `{n:0kd}`: decimal digits left-padded with
zeros to width `k`. -/
def padChars (k n : Nat) : List Char :=
  List.replicate (k - (natStrChars n).length) '0' ++ natStrChars n

/-- Characters of Python `str(n)` for an integer. -/
def intStrChars (n : Int) : List Char :=
  if n < 0 then '-' :: natStrChars n.natAbs else natStrChars n.natAbs

/-- Python `str(n)` for an integer. -/
def intStr (n : Int) : String := String.mk (intStrChars n)

/-- ASCII whitespace, the model of the character set Python's `str.strip`
removes. -/
def isSpaceCh (c : Char) : Bool :=
  c = ' ' || c = '\t' || c = '\n' || c = '\r' || c = '\x0b' || c = '\x0c'

/-- Characters of Python `s.strip()`. -/
def stripChars (cs : List Char) : List Char :=
  ((cs.dropWhile isSpaceCh).reverse.dropWhile isSpaceCh).reverse

/-- Python `s.strip()`. -/
def pyStripS (s : String) : String := String.mk (stripChars s.data)

/-- ASCII lower-casing of one character; characters outside A-Z (including
the Japanese labels used by the repository) are fixed, as Python's
`str.lower` fixes them. -/
def lowerCh (c : Char) : Char :=
  if 'A' ≤ c ∧ c ≤ 'Z' then Char.ofNat (c.toNat + 32) else c

/-- Python `s.lower()` restricted to the ASCII range. -/
def pyLower (s : String) : String := String.mk (s.data.map lowerCh)

/-- Calendar date, the model of Python's `datetime.date`. -/
structure PDate where
  year : Nat
  month : Nat
  day : Nat
deriving DecidableEq, Repr

/-- Gregorian leap-year rule used by `datetime.date`. -/
def isLeapYear (y : Nat) : Bool :=
  y % 4 = 0 && (y % 100 ≠ 0 || y % 400 = 0)

/-- Number of days of a month, as `datetime.date` validates it. -/
def daysInMonth (y m : Nat) : Nat :=
  if m = 2 then (if isLeapYear y then 29 else 28)
  else if m = 4 ∨ m = 6 ∨ m = 9 ∨ m = 11 then 30
  else 31

/-- The invariant `datetime.date` enforces on construction
(MINYEAR = 1, MAXYEAR = 9999). -/
def PDate.Valid (d : PDate) : Prop :=
  1 ≤ d.year ∧ d.year ≤ 9999 ∧ 1 ≤ d.month ∧ d.month ≤ 12 ∧
    1 ≤ d.day ∧ d.day ≤ daysInMonth d.year d.month

instance (d : PDate) : Decidable d.Valid := by
  unfold PDate.Valid; infer_instance

/-- Characters of `date.isoformat()`: `%04d-%02d-%02d`. -/
def PDate.isoChars (d : PDate) : List Char :=
  padChars 4 d.year ++ '-' :: (padChars 2 d.month ++ '-' :: padChars 2 d.day)

/-- Python `date.isoformat()`. -/
def PDate.isoformat (d : PDate) : String := String.mk d.isoChars

/-- `datetime.date(y, m, d)` as a total function: `some` exactly when the
constructor would accept the components. -/
def mkDate? (y m d : Nat) : Option PDate :=
  if 1 ≤ y ∧ y ≤ 9999 ∧ 1 ≤ m ∧ m ≤ 12 ∧ 1 ≤ d ∧ d ≤ daysInMonth y m
  then some ⟨y, m, d⟩ else none

/-- `datetime.strptime(s, "%Y-%m-%d").date()` as a total function: the
strptime pattern for %Y matches exactly four digits, %m and %d match one or
two digits whose value is range-checked together with the calendar
validation done by the date constructor. -/
def parseIsoChars (cs : List Char) : Option PDate :=
  let ys := cs.takeWhile isDigitCh
  let r1 := cs.dropWhile isDigitCh
  if ys.length = 4 then
    match r1 with
    | '-' :: r2 =>
      let ms := r2.takeWhile isDigitCh
      let r3 := r2.dropWhile isDigitCh
      if 1 ≤ ms.length ∧ ms.length ≤ 2 then
        match r3 with
        | '-' :: r4 =>
          let ds := r4.takeWhile isDigitCh
          let r5 := r4.dropWhile isDigitCh
          if 1 ≤ ds.length ∧ ds.length ≤ 2 ∧ r5 = [] then
            mkDate? (chainVal ys) (chainVal ms) (chainVal ds)
          else none
        | _ => none
      else none
    | _ => none
  else none

/-- String-level entry point of the strptime model. -/
def parseIso (s : String) : Option PDate := parseIsoChars s.data

/-- A loosely-typed Python value as it occurs in the row maps exchanged
between the model and the repository: a string, an int, a bool, or None.
(The date/datetime branches of `_to_date` are never fed by the embedded
call sites, which pass strings, ints or None.) -/
inductive RawValue
  | str (s : String)
  | int (n : Int)
  | bool (b : Bool)
  | pyNone
deriving DecidableEq, Repr

/-- Python `str(v)`. -/
def pyStr : RawValue → String
  | .str s => s
  | .int n => intStr n
  | .bool b => if b then "True" else "False"
  | .pyNone => "None"

/-- Python truthiness of a raw value. -/
def pyTruthy : RawValue → Bool
  | .str s => s ≠ ""
  | .int n => n ≠ 0
  | .bool b => b
  | .pyNone => false

/-- Python `value in (None, "")`, the emptiness test of `_to_date` and
`_to_int`. -/
def isNoneOrEmpty : RawValue → Bool
  | .pyNone => true
  | .str s => s = ""
  | _ => false

/-- A Python dict with string keys, in insertion order. -/
abbrev Row := List (String × RawValue)

namespace Row

/-- `row.get(k)` / `row[k]` lookup. -/
def get? (r : Row) (k : String) : Option RawValue :=
  (r.find? (fun p => p.1 = k)).map (·.2)

/-- `row.get(k, d)` lookup with default. -/
def getD (r : Row) (k : String) (d : RawValue) : RawValue :=
  (r.get? k).getD d

/-- `row[k] = v`: replace the value of an existing key in place, else
append the new key (Python dict insertion-order semantics). -/
def set (r : Row) (k : String) (v : RawValue) : Row :=
  match r with
  | [] => [(k, v)]
  | (k0, v0) :: t => if k0 = k then (k0, v) :: t else (k0, v0) :: set t k v

/-- `row.setdefault(k, v)`. -/
def setdefault (r : Row) (k : String) (v : RawValue) : Row :=
  if (r.get? k).isSome then r else r ++ [(k, v)]

/-- `row.update(other)`: assign every key of `other`, in order. -/
def dictUpdate (r other : Row) : Row :=
  other.foldl (fun acc p => acc.set p.1 p.2) r

/-- The key list of the dict. -/
def keys (r : Row) : List String := r.map (·.1)

end Row

/-- `ALLOWED_SALE_STATUS` of src/models/product.py. -/
def ALLOWED_SALE_STATUS : List String := ["未出品", "出品済", "売却済"]

/-- The validated `Product` dataclass of src/models/product.py, after the
coercions of `__post_init__` have run.  Note there is no handling-fee
field: the dataclass defines none. -/
structure Product where
  product_no : String
  name : String
  store_name : String
  purchase_date : PDate
  purchase_price : Int
  sale_status : String
  listed_date : Option PDate
  sale_date : Option PDate
  sale_price : Option Int
  sales_channel : Option String
  shipping_cost : Option Int
  is_archived : Bool
  revision : String
  updated_at : Option String
deriving DecidableEq, Repr

/-- `_to_date(value, field, required=True)` of src/models/product.py,
specialised to required fields (the flag only selects which of the two
specialisations runs).  The embedded call sites never pass native
date/datetime objects, so those isinstance branches are not reachable and
every non-string non-empty value is the `invalid type` error. -/
def toDateReq (v : RawValue) (field : String) : Except String PDate :=
  if isNoneOrEmpty v then .error (field ++ " is required")
  else match v with
    | .str s =>
      match parseIso s with
      | some d => .ok d
      | none => .error (field ++ " must be YYYY-MM-DD")
    | _ => .error (field ++ " has invalid type")

/-- `_to_date(value, field, required=False)` of src/models/product.py. -/
def toDateOpt (v : RawValue) (field : String) : Except String (Option PDate) :=
  if isNoneOrEmpty v then .ok none
  else match v with
    | .str s =>
      match parseIso s with
      | some d => .ok (some d)
      | none => .error (field ++ " must be YYYY-MM-DD")
    | _ => .error (field ++ " has invalid type")

/-- Characters of a Python `int(...)` literal body: optional sign followed
by at least one digit.  (Python also tolerates single interior
underscores; no embedded call site produces them.) -/
def intLitVal? (cs : List Char) : Option Int :=
  match cs with
  | '-' :: rest =>
    if rest ≠ [] ∧ rest.all isDigitCh then some (-(chainVal rest : Int)) else none
  | '+' :: rest =>
    if rest ≠ [] ∧ rest.all isDigitCh then some (chainVal rest : Int) else none
  | _ => if cs ≠ [] ∧ cs.all isDigitCh then some (chainVal cs : Int) else none

/-- Python `int(s)` on a string: surrounding whitespace is tolerated, then
an optional sign and digits. -/
def pyIntOfStr? (s : String) : Option Int := intLitVal? (stripChars s.data)

/-- `_to_int(value, field, required=True)` of src/models/product.py,
specialised to required fields.  Python `int()` of a bool returns 0/1. -/
def toIntReq (v : RawValue) (field : String) : Except String Int :=
  if isNoneOrEmpty v then .error (field ++ " is required")
  else match v with
    | .int n => .ok n
    | .bool b => .ok (if b then 1 else 0)
    | .str s =>
      match pyIntOfStr? s with
      | some n => .ok n
      | none => .error (field ++ " must be integer")
    | .pyNone => .error (field ++ " must be integer")

/-- `_to_int(value, field, required=False)` of src/models/product.py. -/
def toIntOpt (v : RawValue) (field : String) : Except String (Option Int) :=
  if isNoneOrEmpty v then .ok none
  else match v with
    | .int n => .ok (some n)
    | .bool b => .ok (some (if b then 1 else 0))
    | .str s =>
      match pyIntOfStr? s with
      | some n => .ok (some n)
      | none => .error (field ++ " must be integer")
    | .pyNone => .error (field ++ " must be integer")

/-- `Product.from_row(row)` of src/models/product.py: the classmethod
computes the raw constructor arguments (str/strip coercions, defaults),
then `__post_init__` validates them in source order; the first failing
check is the raised ValueError. -/
def Product.from_row (row : Row) : Except String Product :=
  let pno := pyStripS (pyStr (row.getD "product_no" (.str "")))
  let nameV := pyStripS (pyStr (row.getD "name" (.str "")))
  let storeV := pyStripS (pyStr (row.getD "store_name" (.str "")))
  let statusRaw := pyStripS (pyStr (row.getD "sale_status" (.str "未出品")))
  let statusV := if statusRaw = "" then "未出品" else statusRaw
  let chanS := pyStripS (pyStr (row.getD "sales_channel" (.str "")))
  let chanV : Option String := if chanS = "" then none else some chanS
  let archV : Bool := pyLower (pyStr (row.getD "is_archived" (.str ""))) ∈ ["true", "1", "yes"]
  let revV := pyStripS (pyStr (row.getD "revision" (.str "")))
  if pno = "" then .error "product_no is required"
  else if nameV = "" then .error "name is required"
  else if storeV = "" then .error "store_name is required"
  else match toDateReq (row.getD "purchase_date" (.str "")) "purchase_date" with
  | .error e => .error e
  | .ok pdate =>
  match toIntReq (row.getD "purchase_price" (.str "")) "purchase_price" with
  | .error e => .error e
  | .ok pprice =>
  match toDateOpt (row.getD "listed_date" (.str "")) "listed_date" with
  | .error e => .error e
  | .ok ldate =>
  match toDateOpt (row.getD "sale_date" (.str "")) "sale_date" with
  | .error e => .error e
  | .ok sdate =>
  match toIntOpt (row.getD "sale_price" (.str "")) "sale_price" with
  | .error e => .error e
  | .ok sprice =>
  match toIntOpt (row.getD "shipping_cost" (.str "")) "shipping_cost" with
  | .error e => .error e
  | .ok ship =>
  if statusV ∉ ALLOWED_SALE_STATUS then
    .error "sale_status must be one of allowed values"
  else if pprice < 0 then .error "purchase_price must be >= 0"
  else if (match sprice with | some v => decide (v < 0) | none => false) then
    .error "sale_price must be >= 0"
  else if (match ship with | some v => decide (v < 0) | none => false) then
    .error "shipping_cost must be >= 0"
  else .ok {
    product_no := pno, name := nameV, store_name := storeV,
    purchase_date := pdate, purchase_price := pprice, sale_status := statusV,
    listed_date := ldate, sale_date := sdate, sale_price := sprice,
    sales_channel := chanV, shipping_cost := ship, is_archived := archV,
    revision := revV, updated_at := none }

/-- The serialization `d.isoformat() if d else ""` of an optional date. -/
def serialDate : Option PDate → String
  | some d => d.isoformat
  | none => ""

/-- The serialization `v if v is not None else ""` of an optional int. -/
def serialInt : Option Int → RawValue
  | some v => .int v
  | none => .str ""

/-- The serialization `s or ""` of an optional string (a Some "" is also
mapped to `""` by Python truthiness, which coincides with this). -/
def serialStr : Option String → String
  | some s => s
  | none => ""

/-- `Product.to_row()` of src/models/product.py: the literal dict, in
source key order. -/
def Product.to_row (p : Product) : Row :=
  [("product_no", .str p.product_no),
   ("name", .str p.name),
   ("store_name", .str p.store_name),
   ("purchase_date", .str p.purchase_date.isoformat),
   ("purchase_price", .int p.purchase_price),
   ("sale_status", .str p.sale_status),
   ("listed_date", .str (serialDate p.listed_date)),
   ("sale_date", .str (serialDate p.sale_date)),
   ("sale_price", serialInt p.sale_price),
   ("sales_channel", .str (serialStr p.sales_channel)),
   ("shipping_cost", serialInt p.shipping_cost),
   ("is_archived", .bool p.is_archived),
   ("revision", .str p.revision),
   ("updated_at", .str (serialStr p.updated_at))]

/-- Python `self.shipping_cost or 0`: None and 0 are falsy. -/
def pyOrZero : Option Int → Int
  | some v => if v = 0 then 0 else v
  | none => 0

/-- The `profit` property of src/models/product.py. -/
def Product.profit (p : Product) : Option Int :=
  match p.sale_price with
  | none => none
  | some v => some (v - p.purchase_price - pyOrZero p.shipping_cost)

/-- Validity of an optional date (vacuous when absent). -/
def optPDateValid : Option PDate → Prop
  | some d => d.Valid
  | none => True

instance : (o : Option PDate) → Decidable (optPDateValid o)
  | some d => inferInstanceAs (Decidable d.Valid)
  | none => inferInstanceAs (Decidable True)

/-- Non-negativity of an optional integer (vacuous when absent). -/
def optNonneg : Option Int → Prop
  | some v => 0 ≤ v
  | none => True

instance : (o : Option Int) → Decidable (optNonneg o)
  | some v => inferInstanceAs (Decidable (0 ≤ v))
  | none => inferInstanceAs (Decidable True)

/-- The invariant `__post_init__` guarantees about a constructed Product
(the "validly constructed Record" of the spec), expressed on the typed
fields: required strings non-empty, dates calendar-valid, status in the
closed enumeration, monetary fields non-negative. -/
def Product.ValidRec (p : Product) : Prop :=
  p.product_no ≠ "" ∧ p.name ≠ "" ∧ p.store_name ≠ "" ∧
  p.purchase_date.Valid ∧
  optPDateValid p.listed_date ∧
  optPDateValid p.sale_date ∧
  p.sale_status ∈ ALLOWED_SALE_STATUS ∧
  0 ≤ p.purchase_price ∧
  optNonneg p.sale_price ∧
  optNonneg p.shipping_cost

instance (p : Product) : Decidable p.ValidRec := by
  unfold Product.ValidRec; infer_instance

/-- Error taxonomy of the repository operations: Python `KeyError`,
`ExternalUpdateDetectedError`, `ValueError` from Product validation, and
the `AttributeError` raised when `product.handling_fee` is accessed on a
Product that has no such attribute. -/
inductive RepoError
  | keyError (msg : String)
  | conflict
  | validation (msg : String)
  | attributeError
deriving DecidableEq, Repr

/-- `self._jp_col_map` of src/services/sheets_product_repository.py: the
1-based physical column bound to each logical field key of `JP_HEADERS`,
or none when no header matched.  `_configure_sheet_layout` only ever
stores `idx + 1 ≥ 1`. -/
structure ColMap where
  product_no : Option Nat := none
  name : Option Nat := none
  store_name : Option Nat := none
  purchase_date : Option Nat := none
  purchase_price : Option Nat := none
  listed_date : Option Nat := none
  sale_date : Option Nat := none
  sale_price : Option Nat := none
  sales_channel : Option Nat := none
  shipping_cost : Option Nat := none
  handling_fee : Option Nat := none
  listed_flag : Option Nat := none
deriving DecidableEq, Repr

/-- Python truthiness of `col.get(key)`: present and non-zero (columns
from `_configure_sheet_layout` are 1-based, hence never zero). -/
def colTruthy : Option Nat → Bool
  | some c => c ≠ 0
  | none => false

/-- The worksheet contents as `get_all_values` returns them: a list of
rows of cell strings (possibly ragged). -/
abbrev SheetRows := List (List String)

/-- `row_values[idx - 1] if idx <= n else ""` for a 1-based bound column
(the only shape of index the repository produces). -/
def rowCell (row : List String) (c : Nat) : String :=
  if 1 ≤ c ∧ c ≤ row.length then row.getD (c - 1) "" else ""

/-- The `_cell` helper of `_record_from_jp_row`: read a bound cell and
strip it, absent/unbound cells read as `""`. -/
def cellOf (row : List String) (oc : Option Nat) : String :=
  match oc with
  | some c => pyStripS (rowCell row c)
  | none => ""

/-- `_row_revision` of src/services/sheets_product_repository.py: the
digest input is the row joined with `|`; the sha256-and-truncate step is
abstracted as the function parameter `hash`, since every claim consumes
the token only through equality comparison. -/
def rowRevision (hash : String → String) (rowValues : List String) : String :=
  hash (String.intercalate "|" rowValues)

/-- Decomposition of the regex `^(\d{4})-(\d{1,2})-(\d{1,2})$` into its
three digit groups. -/
def isoShape? (cs : List Char) : Option (List Char × List Char × List Char) :=
  let ys := cs.takeWhile isDigitCh
  let r1 := cs.dropWhile isDigitCh
  if ys.length = 4 then
    match r1 with
    | '-' :: r2 =>
      let ms := r2.takeWhile isDigitCh
      let r3 := r2.dropWhile isDigitCh
      if 1 ≤ ms.length ∧ ms.length ≤ 2 then
        match r3 with
        | '-' :: r4 =>
          let ds := r4.takeWhile isDigitCh
          let r5 := r4.dropWhile isDigitCh
          if 1 ≤ ds.length ∧ ds.length ≤ 2 ∧ r5 = [] then some (ys, ms, ds)
          else none
        | _ => none
      else none
    | _ => none
  else none

/-- Decomposition of the regex `^(\d{1,2})/(\d{1,2})(?:/(\d{2,4}))?$` into
month and day groups plus the optional year group. -/
def slashShape? (cs : List Char) : Option (List Char × List Char × Option (List Char)) :=
  let ms := cs.takeWhile isDigitCh
  let r1 := cs.dropWhile isDigitCh
  if 1 ≤ ms.length ∧ ms.length ≤ 2 then
    match r1 with
    | '/' :: r2 =>
      let ds := r2.takeWhile isDigitCh
      let r3 := r2.dropWhile isDigitCh
      if 1 ≤ ds.length ∧ ds.length ≤ 2 then
        match r3 with
        | [] => some (ms, ds, none)
        | '/' :: r4 =>
          let ys := r4.takeWhile isDigitCh
          let r5 := r4.dropWhile isDigitCh
          if (2 ≤ ys.length ∧ ys.length ≤ 4) ∧ r5 = [] then some (ms, ds, some ys)
          else none
        | _ => none
      else none
    | _ => none
  else none

/-- Decomposition of the prefix regex `^(\d{1,2})月(\d{1,2})日` (anything
may follow the day marker). -/
def monthDayShape? (cs : List Char) : Option (List Char × List Char) :=
  let ms := cs.takeWhile isDigitCh
  let r1 := cs.dropWhile isDigitCh
  if 1 ≤ ms.length ∧ ms.length ≤ 2 then
    match r1 with
    | '月' :: r2 =>
      let ds := r2.takeWhile isDigitCh
      let r3 := r2.dropWhile isDigitCh
      if 1 ≤ ds.length ∧ ds.length ≤ 2 then
        match r3 with
        | '日' :: _ => some (ms, ds)
        | _ => none
      else none
    | _ => none
  else none

/-- The century completion `if y < 100: y += 2000 if y < 50 else 1900`
applied to the slash-pattern year. -/
def centuryFix (y : Nat) : Nat :=
  if y < 100 then (if y < 50 then y + 2000 else y + 1900) else y

/-- `_to_iso_date` of src/services/sheets_product_repository.py,
specialised to string inputs (every call site passes a `_cell` string);
`date.today().year` is the parameter `todayYear`.  The three regex
attempts run in source order on the stripped input. -/
def toIsoDate (todayYear : Nat) (s0 : String) : Option String :=
  if s0 = "" then none
  else
    let s := stripChars s0.data
    if s = [] then none
    else match isoShape? s with
    | some (ys, ms, ds) =>
      some (String.mk (ys ++ '-' :: (padChars 2 (chainVal ms) ++ '-' :: padChars 2 (chainVal ds))))
    | none =>
    match slashShape? s with
    | some (ms, ds, yOpt) =>
      let y := centuryFix (match yOpt with | some yc => chainVal yc | none => todayYear)
      some (String.mk (natStrChars y ++ '-' :: (padChars 2 (chainVal ms) ++ '-' :: padChars 2 (chainVal ds))))
    | none =>
    match monthDayShape? s with
    | some (ms, ds) =>
      some (String.mk (natStrChars todayYear ++ '-' :: (padChars 2 (chainVal ms) ++ '-' :: padChars 2 (chainVal ds))))
    | none => none

/-- The numeric core of `_to_int_str`: `int(float(s.replace(",", "")))`
as a partial value, `none` when float() would raise.  The float literal
grammar is modelled for the decimal forms that occur in sheet cells
(optional sign, digits with an optional fraction part, surrounding
whitespace); `int()` truncates toward zero, so the fraction digits only
need to be well-formed. -/
def floatIntVal? (s : String) : Option Int :=
  let cs := stripChars (s.data.filter (fun c => c ≠ ','))
  let core := fun (body : List Char) (sign : Int) =>
    let ip := body.takeWhile isDigitCh
    let r1 := body.dropWhile isDigitCh
    match r1 with
    | [] => if ip = [] then none else some (sign * (chainVal ip : Int))
    | '.' :: r2 =>
      if r2.all isDigitCh ∧ (ip ≠ [] ∨ r2 ≠ []) then some (sign * (chainVal ip : Int))
      else none
    | _ => none
  match cs with
  | '-' :: body => core body (-1)
  | '+' :: body => core body 1
  | _ => core cs 1

/-- `_to_int_str` of src/services/sheets_product_repository.py: the
decimal rendering of the truncated value, or `""` when parsing fails. -/
def toIntStr (s : String) : String :=
  match floatIntVal? s with
  | some n => intStr n
  | none => ""

/-- The affirmative token set of the legacy listed flag (line 156 of
src/services/sheets_product_repository.py). -/
def LISTED_AFFIRMATIVE : List String :=
  ["true", "1", "yes", "○", "〇", "はい", "出品済", "済"]

/-- `_record_from_jp_row` of src/services/sheets_product_repository.py:
rebuild the row map of one sheet row, deriving `sale_status` from the sale
date, the sale price and the legacy listed flag.  `int(sale_price_str)`
re-reads `_to_int_str`'s own rendering, which is the identity on its
non-empty outputs, so the int fields are taken directly from
`floatIntVal?`.  The row-number argument of the source is unused there
and omitted. -/
def record_from_jp_row (hash : String → String) (cfg : ColMap) (todayYear : Nat)
    (rowValues : List String) : Row :=
  let purchaseDate := toIsoDate todayYear (cellOf rowValues cfg.purchase_date)
  let listedDate := toIsoDate todayYear (cellOf rowValues cfg.listed_date)
  let saleDate := toIsoDate todayYear (cellOf rowValues cfg.sale_date)
  let salePrice := floatIntVal? (cellOf rowValues cfg.sale_price)
  let shippingCost := floatIntVal? (cellOf rowValues cfg.shipping_cost)
  let handlingFee := floatIntVal? (cellOf rowValues cfg.handling_fee)
  let listedFlag := pyStripS (cellOf rowValues cfg.listed_flag)
  let saleStatus :=
    if ((match saleDate with | some d => decide (d ≠ "") | none => false) ||
        (match salePrice with | some v => decide (0 < v) | none => false)) then "売却済"
    else if pyLower listedFlag ∈ LISTED_AFFIRMATIVE then "出品済"
    else "未出品"
  [("product_no", .str (cellOf rowValues cfg.product_no)),
   ("name", .str (cellOf rowValues cfg.name)),
   ("store_name", .str (cellOf rowValues cfg.store_name)),
   ("purchase_date", .str (match purchaseDate with | some d => d | none => "")),
   ("purchase_price", .str (let s := toIntStr (cellOf rowValues cfg.purchase_price);
      if s = "" then "0" else s)),
   ("sale_status", .str saleStatus),
   ("listed_date", .str (match listedDate with | some d => d | none => "")),
   ("sale_date", .str (match saleDate with | some d => d | none => "")),
   ("sale_price", match salePrice with | some v => .int v | none => .str ""),
   ("sales_channel", let c := cellOf rowValues cfg.sales_channel;
      if c = "" then .pyNone else .str c),
   ("shipping_cost", match shippingCost with | some v => .int v | none => .str ""),
   ("handling_fee", match handlingFee with | some v => .int v | none => .str ""),
   ("revision", .str (rowRevision hash rowValues))]

/-- Insert into the per-column update dict (Python dict assignment keyed
by column index). -/
def colSet (u : List (Nat × RawValue)) (c : Nat) (v : RawValue) : List (Nat × RawValue) :=
  match u with
  | [] => [(c, v)]
  | (c0, v0) :: t => if c0 = c then (c0, v) :: t else (c0, v0) :: colSet t c v

/-- One guarded assignment `if col.get(k): updates[col[k]] = v`. -/
def colAdd (u : List (Nat × RawValue)) (oc : Option Nat) (v : RawValue) : List (Nat × RawValue) :=
  match oc with
  | some c => if c ≠ 0 then colSet u c v else u
  | none => u

/-- `_apply_updates_to_jp_row` of src/services/sheets_product_repository.py:
the cell-update dict built field by field in source order.  The
handling-fee branch reads `product.handling_fee`, an attribute the
Product dataclass does not define, so reaching it with a bound (truthy)
handling-fee column raises AttributeError before the listed-flag entry is
added. -/
def apply_updates_to_jp_row (cfg : ColMap) (p : Product) (listed_date : Option PDate) :
    Except RepoError (List (Nat × RawValue)) :=
  let u1 := colAdd [] cfg.name (.str p.name)
  let u2 := colAdd u1 cfg.store_name (.str p.store_name)
  let u3 := colAdd u2 cfg.purchase_date (.str p.purchase_date.isoformat)
  let u4 := colAdd u3 cfg.purchase_price (.int p.purchase_price)
  let dOpt := match listed_date with | some d => some d | none => p.listed_date
  let u5 := colAdd u4 cfg.listed_date (.str (match dOpt with | some d => d.isoformat | none => ""))
  let u6 := colAdd u5 cfg.sale_date (.str (match p.sale_date with | some d => d.isoformat | none => ""))
  let u7 := colAdd u6 cfg.sale_price (match p.sale_price with | some v => .int v | none => .str "")
  let u8 := colAdd u7 cfg.sales_channel (.str (match p.sales_channel with | some s => s | none => ""))
  let u9 := colAdd u8 cfg.shipping_cost (match p.shipping_cost with | some v => .int v | none => .str "")
  if colTruthy cfg.handling_fee then .error .attributeError
  else
    .ok (colAdd u9 cfg.listed_flag
      (.str (if p.sale_status = "出品済" ∨ p.sale_status = "売却済" then "TRUE" else "FALSE")))

/-- `_find_first_insertable_jp_row` of
src/services/sheets_product_repository.py: the first data row (index ≥ 4,
i.e. sheet row ≥ 5) whose product-number cell is non-empty and whose name
cell is empty, as `(row index 1-based, stripped product number)`. -/
def find_first_insertable_jp_row (cfg : ColMap) (sheet : SheetRows) : Option (Nat × String) :=
  if sheet.length < 5 then none
  else match cfg.product_no, cfg.name with
  | some pc, some nc =>
    ((List.range sheet.length).find? (fun i =>
      decide (4 ≤ i) &&
        (pyStripS (rowCell (sheet.getD i []) pc) ≠ "") &&
        (pyStripS (rowCell (sheet.getD i []) nc) = ""))).map
      (fun i => (i + 1, pyStripS (rowCell (sheet.getD i []) pc)))
  | _, _ => none

/-- The row-location loop of `update_product`: the first data row whose
stripped product-number cell equals the key, as a 1-based row number. -/
def findTargetRow (pc : Nat) (sheet : SheetRows) (product_no : String) : Option Nat :=
  ((List.range sheet.length).find? (fun i =>
    decide (4 ≤ i) && (pyStripS (rowCell (sheet.getD i []) pc) = product_no))).map (· + 1)

/-- `list_products` of src/services/sheets_product_repository.py: rebuild
every data row, skip rows with an empty product number, rows that fail
Product validation, and (unless `includeArchived`) archived rows. -/
def list_products (hash : String → String) (cfg : ColMap) (todayYear : Nat)
    (sheet : SheetRows) (includeArchived : Bool) : List Product :=
  if sheet.length < 5 then []
  else (List.range sheet.length).filterMap (fun i =>
    if 4 ≤ i then
      let rec0 := record_from_jp_row hash cfg todayYear (sheet.getD i [])
      if pyTruthy (rec0.getD "product_no" .pyNone) = false then none
      else match Product.from_row rec0 with
        | .error _ => none
        | .ok p => if includeArchived = false ∧ p.is_archived then none else some p
    else none)

/-- `p.product_no[1:]` value when the product number is `P` followed by
digits (`startswith("P") and p.product_no[1:].isdigit()`). -/
def pNumVal? (s : String) : Option Nat :=
  match s.data with
  | 'P' :: rest => if rest ≠ [] ∧ rest.all isDigitCh then some (chainVal rest) else none
  | _ => none

/-- `_next_product_no` of src/services/sheets_product_repository.py. -/
def next_product_no (hash : String → String) (cfg : ColMap) (todayYear : Nat)
    (sheet : SheetRows) : String :=
  let ps := list_products hash cfg todayYear sheet true
  let maxSeq := ps.foldl (fun m p =>
    match pNumVal? p.product_no with | some k => max m k | none => m) 0
  String.mk ('P' :: padChars 5 (maxSeq + 1))

/-- One write issued against the worksheet: a 1-based single-cell update
(`ws.update_cell`) or a row append (`ws.append_row`). -/
inductive Effect
  | updateCell (r c : Nat) (v : RawValue)
  | appendRow (vals : List RawValue)
deriving DecidableEq, Repr

/-- Store one cell value at 1-based position `c`, padding the row with
empty cells as the backing sheet does. -/
def setRowCell (row : List String) (c : Nat) (s : String) : List String :=
  if c ≤ row.length then row.set (c - 1) s
  else (row ++ List.replicate (c - row.length) "").set (c - 1) s

/-- Apply one write to the sheet contents (written values read back as
their string rendering). -/
def applySheet (sheet : SheetRows) (e : Effect) : SheetRows :=
  match e with
  | .updateCell r c v =>
    if r ≤ sheet.length then
      sheet.set (r - 1) (setRowCell (sheet.getD (r - 1) []) c (pyStr v))
    else sheet
  | .appendRow vals => sheet ++ [vals.map pyStr]

/-- Width of the fresh append row:
`max((self._jp_col_map or {}).values(), default=10)`. -/
def maxColWidth (cfg : ColMap) : Nat :=
  let vals := [cfg.product_no, cfg.name, cfg.store_name, cfg.purchase_date,
    cfg.purchase_price, cfg.listed_date, cfg.sale_date, cfg.sale_price,
    cfg.sales_channel, cfg.shipping_cost, cfg.handling_fee, cfg.listed_flag]
  let bound := vals.filterMap id
  if bound = [] then 10 else bound.foldl max 0

/-- The per-field fill of the append-path `row_data` loop.  The
handling-fee iteration reads the missing `product.handling_fee`
attribute, so a bound handling-fee column aborts the whole create with
AttributeError before `append_row` is reached. -/
def appendRowData (cfg : ColMap) (productNoRaw : RawValue) (p : Product) :
    Except RepoError (List RawValue) :=
  if cfg.handling_fee.isSome then .error .attributeError
  else
    let base := List.replicate (maxColWidth cfg) (RawValue.str "")
    let put := fun (row : List RawValue) (oc : Option Nat) (v : RawValue) =>
      match oc with
      | some c => row.set (c - 1) v
      | none => row
    let r1 := put base cfg.product_no productNoRaw
    let r2 := put r1 cfg.name (.str p.name)
    let r3 := put r2 cfg.store_name (.str p.store_name)
    let r4 := put r3 cfg.purchase_date (.str p.purchase_date.isoformat)
    let r5 := put r4 cfg.purchase_price (.int p.purchase_price)
    let ld := if p.sale_status = "出品済" then p.listed_date else none
    let r6 := put r5 cfg.listed_date (.str (match ld with | some d => d.isoformat | none => ""))
    let r7 := put r6 cfg.sale_date (.str (match p.sale_date with | some d => d.isoformat | none => ""))
    let r8 := put r7 cfg.sale_price (match p.sale_price with | some v => .int v | none => .str "")
    let r9 := put r8 cfg.sales_channel (.str (match p.sales_channel with | some s => s | none => ""))
    let r10 := put r9 cfg.shipping_cost (match p.shipping_cost with | some v => .int v | none => .str "")
    let r11 := put r10 cfg.listed_flag
      (.str (if p.sale_status = "出品済" ∨ p.sale_status = "売却済" then "TRUE" else "FALSE"))
    .ok r11

/-- The product number chosen by `create_product`:
`payload.get("product_no") or (slot[1] if slot else self._next_product_no())`.
A truthy payload value is kept as-is; the slot number or the next free
number is only the fallback. -/
def create_pno_raw (hash : String → String) (cfg : ColMap) (todayYear : Nat)
    (sheet : SheetRows) (payload : Row) : RawValue :=
  let slot := find_first_insertable_jp_row cfg sheet
  let fallback : RawValue := match slot with
    | some sl => .str sl.2
    | none => .str (next_product_no hash cfg todayYear sheet)
  match payload.get? "product_no" with
  | some v => if pyTruthy v then v else fallback
  | none => fallback

/-- The `data` dict `create_product` validates: the payload with the
chosen product number assigned and the optional fields defaulted. -/
def create_data (hash : String → String) (cfg : ColMap) (todayYear : Nat)
    (sheet : SheetRows) (payload : Row) : Row :=
  (((((((payload.set "product_no"
    (create_pno_raw hash cfg todayYear sheet payload)).setdefault
    "sale_status" (.str "未出品")).setdefault
    "listed_date" .pyNone).setdefault
    "sale_date" .pyNone).setdefault
    "sale_price" .pyNone).setdefault
    "sales_channel" .pyNone).setdefault
    "shipping_cost" .pyNone).setdefault
    "handling_fee" .pyNone

/-- `create_product` of src/services/sheets_product_repository.py.  The
result carries the outcome, the list of writes issued against the sheet
(in issue order — on an exception the writes already issued remain), and
the sheet contents after those writes. -/
def create_product (hash : String → String) (cfg : ColMap) (todayYear : Nat)
    (sheet : SheetRows) (payload : Row) :
    Except RepoError Product × List Effect × SheetRows :=
  let slot := find_first_insertable_jp_row cfg sheet
  let pnoRaw : RawValue := create_pno_raw hash cfg todayYear sheet payload
  match Product.from_row (create_data hash cfg todayYear sheet payload) with
  | .error e => (.error (.validation e), [], sheet)
  | .ok product =>
    match slot with
    | some (insertRow, _) =>
      let writes1 : List Effect := match cfg.product_no with
        | some c => if c ≠ 0 then [.updateCell insertRow c pnoRaw] else []
        | none => []
      let sheet1 := writes1.foldl applySheet sheet
      let ld := if product.sale_status = "出品済" then product.listed_date else none
      match apply_updates_to_jp_row cfg product ld with
      | .error e => (.error e, writes1, sheet1)
      | .ok ups =>
        let writes2 := ups.map (fun cv => Effect.updateCell insertRow cv.1 cv.2)
        let sheet2 := writes2.foldl applySheet sheet1
        let prod2 := if insertRow ≤ sheet2.length then
            { product with revision := rowRevision hash (sheet2.getD (insertRow - 1) []) }
          else product
        (.ok prod2, writes1 ++ writes2, sheet2)
    | none =>
      match appendRowData cfg pnoRaw product with
      | .error e => (.error e, [], sheet)
      | .ok rowData =>
        let sheet2 := applySheet sheet (.appendRow rowData)
        let targetRow := sheet2.length
        let prod2 := if targetRow ≤ sheet2.length then
            { product with revision := rowRevision hash (sheet2.getD (targetRow - 1) []) }
          else product
        (.ok prod2, [.appendRow rowData], sheet2)

/-- `update_product` of src/services/sheets_product_repository.py: locate
the row by product number, compare the row's current revision token
against `expected_revision` before anything is written, rebuild and merge
the record, re-validate it as a whole, then write every bound column of
the row and return the record with the recomputed revision. -/
def update_product (hash : String → String) (cfg : ColMap) (todayYear : Nat)
    (sheet : SheetRows) (product_no : String) (updates : Row)
    (expected_revision : String) :
    Except RepoError Product × List Effect × SheetRows :=
  if sheet.length < 5 then
    (.error (.keyError product_no), [], sheet)
  else match cfg.product_no with
  | none => (.error (.keyError product_no), [], sheet)
  | some pc =>
    match findTargetRow pc sheet product_no with
    | none => (.error (.keyError product_no), [], sheet)
    | some targetRow =>
      let rowVals := sheet.getD (targetRow - 1) []
      let currentRevision := rowRevision hash rowVals
      if currentRevision ≠ expected_revision then
        (.error .conflict, [], sheet)
      else
        match Product.from_row (record_from_jp_row hash cfg todayYear rowVals) with
        | .error e => (.error (.validation e), [], sheet)
        | .ok current =>
          let merged := ((current.to_row).dictUpdate updates).set "product_no" (.str product_no)
          match Product.from_row merged with
          | .error e => (.error (.validation e), [], sheet)
          | .ok updated =>
            match apply_updates_to_jp_row cfg updated updated.listed_date with
            | .error e => (.error e, [], sheet)
            | .ok ups =>
              let writes := ups.map (fun cv => Effect.updateCell targetRow cv.1 cv.2)
              let sheet2 := writes.foldl applySheet sheet
              let prod2 := { updated with
                revision := rowRevision hash (sheet2.getD (targetRow - 1) []) }
              (.ok prod2, writes, sheet2)

/-- The strip-invariance condition on an optional free-text field. -/
def OptStripInv : Option String → Prop
  | some s => pyStripS s = s ∧ s ≠ ""
  | none => True

instance : (o : Option String) → Decidable (OptStripInv o)
  | some s => inferInstanceAs (Decidable (pyStripS s = s ∧ s ≠ ""))
  | none => inferInstanceAs (Decidable True)

/-! ### Concrete fixtures used by the witnesses and counterexamples -/

/-- A column map binding the five core columns, as `_configure_sheet_layout`
produces for a row-3 header `商品No, 商品名, 店舗名, 仕入れ日付, 仕入額`. -/
def cfgEx : ColMap where
  product_no := some 1
  name := some 2
  store_name := some 3
  purchase_date := some 4
  purchase_price := some 5

/-- A sheet whose row 5 is an insertable slot: product number assigned,
name cell empty. -/
def sheetEx : SheetRows :=
  [["title"], [], ["商品No", "商品名", "店舗名", "仕入れ日付", "仕入額"], [],
   ["P00077", "", "", "", ""]]

/-- A sheet whose row 5 holds one complete product row. -/
def sheetFullEx : SheetRows :=
  [["title"], [], ["商品No", "商品名", "店舗名", "仕入れ日付", "仕入額"], [],
   ["P00077", "Jacket", "ShopA", "2024-05-01", "5000"]]

/-- The revision token of row 5 of `sheetFullEx` under the identity digest. -/
def revEx : String := "P00077|Jacket|ShopA|2024-05-01|5000"

/-- A creation payload that carries its own (different) product number. -/
def payloadPnoEx : Row :=
  [("product_no", .str "P99999"), ("name", .str "Jacket"), ("store_name", .str "ShopA"),
   ("purchase_date", .str "2024-05-01"), ("purchase_price", .int 5000)]

/-- A creation payload without a product number. -/
def payloadEx : Row :=
  [("name", .str "Jacket"), ("store_name", .str "ShopA"),
   ("purchase_date", .str "2024-05-01"), ("purchase_price", .int 5000)]

/-- A second creation payload without a product number. -/
def payloadWEx : Row :=
  [("name", .str "Coat"), ("store_name", .str "ShopB"),
   ("purchase_date", .str "2024-06-02"), ("purchase_price", .int 7000)]

/-- The Product that `create_product` validates for `payloadWEx` against
`sheetEx` (sales channel "None" is Python `str(None)` of the defaulted
field). -/
def prodWEx : Product where
  product_no := "P00077"
  name := "Coat"
  store_name := "ShopB"
  purchase_date := ⟨2024, 6, 2⟩
  purchase_price := 7000
  sale_status := "未出品"
  listed_date := none
  sale_date := none
  sale_price := none
  sales_channel := some "None"
  shipping_cost := none
  is_archived := false
  revision := ""
  updated_at := none

/-- The Product `_record_from_jp_row` + `from_row` rebuild from row 5 of
`sheetFullEx`. -/
def prodCurEx : Product where
  product_no := "P00077"
  name := "Jacket"
  store_name := "ShopA"
  purchase_date := ⟨2024, 5, 1⟩
  purchase_price := 5000
  sale_status := "未出品"
  listed_date := none
  sale_date := none
  sale_price := none
  sales_channel := some "None"
  shipping_cost := none
  is_archived := false
  revision := "P00077|Jacket|ShopA|2024-05-01|5000"
  updated_at := none

/-- A validly constructed Record whose name is not strip-invariant. -/
def prodPadNameEx : Product where
  product_no := "P00001"
  name := " Levis "
  store_name := "Tokyo"
  purchase_date := ⟨2024, 5, 1⟩
  purchase_price := 3000
  sale_status := "未出品"
  listed_date := none
  sale_date := none
  sale_price := none
  sales_channel := none
  shipping_cost := none
  is_archived := false
  revision := ""
  updated_at := none

/-- A validly constructed, strip-invariant Record. -/
def prodCleanEx : Product where
  product_no := "P00001"
  name := "Jacket"
  store_name := "ShopA"
  purchase_date := ⟨2024, 5, 1⟩
  purchase_price := 5000
  sale_status := "売却済"
  listed_date := some ⟨2024, 5, 2⟩
  sale_date := some ⟨2024, 6, 3⟩
  sale_price := some 9000
  sales_channel := some "mercari"
  shipping_cost := some 700
  is_archived := false
  revision := "r1"
  updated_at := none

/-- A sold Record without shipping cost. -/
def prodSoldEx : Product where
  product_no := "P00002"
  name := "Jacket"
  store_name := "ShopA"
  purchase_date := ⟨2024, 5, 1⟩
  purchase_price := 5000
  sale_status := "売却済"
  listed_date := none
  sale_date := none
  sale_price := some 9000
  sales_channel := none
  shipping_cost := none
  is_archived := false
  revision := ""
  updated_at := none

/-- A row whose sale-status cell is whitespace only. -/
def rowBlankEx : Row :=
  [("product_no", .str "P00001"), ("name", .str "Jacket"), ("store_name", .str "ShopA"),
   ("purchase_date", .str "2024-05-01"), ("purchase_price", .int 5000),
   ("sale_status", .str "  ")]

/-- The Product `from_row` rebuilds from `rowBlankEx`. -/
def prodBlankEx : Product where
  product_no := "P00001"
  name := "Jacket"
  store_name := "ShopA"
  purchase_date := ⟨2024, 5, 1⟩
  purchase_price := 5000
  sale_status := "未出品"
  listed_date := none
  sale_date := none
  sale_price := none
  sales_channel := none
  shipping_cost := none
  is_archived := false
  revision := ""
  updated_at := none

/-- A row whose sale-status cell holds a non-empty invalid label. -/
def rowBadStatusEx : Row :=
  [("product_no", .str "P00001"), ("name", .str "Jacket"), ("store_name", .str "ShopA"),
   ("purchase_date", .str "2024-05-01"), ("purchase_price", .int 5000),
   ("sale_status", .str "bogus")]

/-- A one-or-two digit group, as matched by `(\d{1,2})`. -/
def DigitChunk12 (cs : List Char) : Prop :=
  cs.all isDigitCh = true ∧ 1 ≤ cs.length ∧ cs.length ≤ 2

instance (cs : List Char) : Decidable (DigitChunk12 cs) := by
  unfold DigitChunk12; infer_instance

/-! ### Arithmetic facts about the digit rendering and parsing helpers -/

theorem digitToCh_facts {d : Nat} (h : d < 10) :
    chVal (digitToCh d) = d ∧ isDigitCh (digitToCh d) = true := by
  interval_cases d <;> exact ⟨by decide, by decide⟩

theorem natChars_all_digits : ∀ fuel n, n ≤ fuel → (natChars fuel n).all isDigitCh = true := by
  intro fuel
  induction fuel with
  | zero =>
    intro n h
    have : n = 0 := Nat.le_zero.mp h
    subst this
    decide
  | succ f ih =>
    intro n h
    by_cases h0 : n = 0
    · subst h0; simp [natChars]
    · have hlt : n / 10 < n := Nat.div_lt_self (Nat.pos_of_ne_zero h0) (by norm_num)
      have hdiv : n / 10 ≤ f := by omega
      have hm : n % 10 < 10 := Nat.mod_lt _ (by norm_num)
      simp only [natChars, h0, if_false, List.all_append, List.all_cons, List.all_nil]
      rw [ih _ hdiv, (digitToCh_facts hm).2]
      decide

theorem natChars_foldl : ∀ fuel n a, n ≤ fuel →
    List.foldl (fun x c => 10 * x + chVal c) a (natChars fuel n) =
      a * 10 ^ (natChars fuel n).length + n := by
  intro fuel
  induction fuel with
  | zero =>
    intro n a h
    have : n = 0 := Nat.le_zero.mp h
    subst this
    simp [natChars]
  | succ f ih =>
    intro n a h
    by_cases h0 : n = 0
    · subst h0; simp [natChars]
    · have hlt : n / 10 < n := Nat.div_lt_self (Nat.pos_of_ne_zero h0) (by norm_num)
      have hdiv : n / 10 ≤ f := by omega
      have hm : (chVal (digitToCh (n % 10))) = n % 10 :=
        (digitToCh_facts (Nat.mod_lt _ (by norm_num))).1
      simp only [natChars, h0, if_false, List.foldl_append, List.foldl_cons, List.foldl_nil,
        List.length_append, List.length_cons, List.length_nil]
      rw [ih _ a hdiv, hm]
      have : (natChars f (n / 10)).length + (0 + 1) = (natChars f (n / 10)).length + 1 := by omega
      rw [this, pow_succ]
      have hdm : 10 * (n / 10) + n % 10 = n := Nat.div_add_mod n 10
      ring_nf
      omega

theorem natChars_length_le : ∀ fuel n k, n ≤ fuel → n < 10 ^ k →
    (natChars fuel n).length ≤ k := by
  intro fuel
  induction fuel with
  | zero =>
    intro n k h _
    have : n = 0 := Nat.le_zero.mp h
    subst this
    simp [natChars]
  | succ f ih =>
    intro n k h hk
    by_cases h0 : n = 0
    · subst h0; simp [natChars]
    · cases k with
      | zero => simp at hk; omega
      | succ j =>
        have hlt : n / 10 < n := Nat.div_lt_self (Nat.pos_of_ne_zero h0) (by norm_num)
        have hdiv : n / 10 ≤ f := by omega
        have hj : n / 10 < 10 ^ j := by
          apply (Nat.div_lt_iff_lt_mul (by norm_num : 0 < 10)).mpr
          calc n < 10 ^ (j + 1) := hk
            _ = 10 ^ j * 10 := by ring
        simp only [natChars, h0, if_false, List.length_append, List.length_cons,
          List.length_nil]
        have := ih _ j hdiv hj
        omega

theorem natChars_ne_nil {fuel n : Nat} (h1 : 1 ≤ n) (h2 : n ≤ fuel) :
    natChars fuel n ≠ [] := by
  cases fuel with
  | zero => omega
  | succ f =>
    have h0 : n ≠ 0 := by omega
    simp [natChars, h0]

theorem natStrChars_all_digits (n : Nat) : (natStrChars n).all isDigitCh = true := by
  by_cases h0 : n = 0
  · subst h0; decide
  · simp only [natStrChars, h0, if_false]
    exact natChars_all_digits n n (le_refl n)

theorem chainVal_natStrChars (n : Nat) : chainVal (natStrChars n) = n := by
  by_cases h0 : n = 0
  · subst h0; decide
  · simp only [natStrChars, h0, if_false, chainVal]
    have := natChars_foldl n n 0 (le_refl n)
    simpa using this

theorem natStrChars_ne_nil (n : Nat) : natStrChars n ≠ [] := by
  by_cases h0 : n = 0
  · subst h0; decide
  · simp only [natStrChars, h0, if_false]
    exact natChars_ne_nil (Nat.one_le_iff_ne_zero.mpr h0) (le_refl n)

theorem natStrChars_length_le {n k : Nat} (hk : 1 ≤ k) (h : n < 10 ^ k) :
    (natStrChars n).length ≤ k := by
  by_cases h0 : n = 0
  · subst h0; simpa [natStrChars] using hk
  · simp only [natStrChars, h0, if_false]
    exact natChars_length_le n n k (le_refl n) h

theorem chainVal_append_zeros : ∀ (m : Nat) (cs : List Char),
    chainVal (List.replicate m '0' ++ cs) = chainVal cs := by
  intro m
  induction m with
  | zero => intro cs; simp
  | succ j ih =>
    intro cs
    have : List.replicate (j + 1) '0' ++ cs = '0' :: (List.replicate j '0' ++ cs) := by
      simp [List.replicate_succ]
    rw [this]
    simp only [chainVal, List.foldl_cons] at ih ⊢
    have hz : 10 * 0 + chVal '0' = 0 := by decide
    rw [hz]
    exact ih cs

theorem padChars_all_digits (k n : Nat) : (padChars k n).all isDigitCh = true := by
  simp only [padChars, List.all_append]
  rw [natStrChars_all_digits]
  have : (List.replicate (k - (natStrChars n).length) '0').all isDigitCh = true := by
    rw [List.all_eq_true]
    intro c hc
    rw [List.eq_of_mem_replicate hc]
    decide
  rw [this]
  decide

theorem chainVal_padChars (k n : Nat) : chainVal (padChars k n) = n := by
  simp only [padChars]
  rw [chainVal_append_zeros]
  exact chainVal_natStrChars n

theorem padChars_length {k n : Nat} (hk : 1 ≤ k) (h : n < 10 ^ k) :
    (padChars k n).length = k := by
  have hle := natStrChars_length_le hk h
  simp only [padChars, List.length_append, List.length_replicate]
  omega

/-! ### takeWhile / dropWhile decomposition lemmas -/

theorem takeWhile_append_all {p : Char → Bool} :
    ∀ xs zs : List Char, xs.all p = true →
      (xs ++ zs).takeWhile p = xs ++ zs.takeWhile p ∧
        (xs ++ zs).dropWhile p = zs.dropWhile p := by
  intro xs
  induction xs with
  | nil => intro zs _; simp
  | cons x t ih =>
    intro zs hall
    simp only [List.all_cons, Bool.and_eq_true] at hall
    have := ih zs hall.2
    simp only [List.cons_append, List.takeWhile_cons, List.dropWhile_cons, hall.1]
    simpa using this

theorem takeWhile_cons_neg {p : Char → Bool} {y : Char} (rest : List Char) (h : p y = false) :
    (y :: rest).takeWhile p = [] ∧ (y :: rest).dropWhile p = y :: rest := by
  simp [List.takeWhile_cons, List.dropWhile_cons, h]

theorem takeWhile_all_self {p : Char → Bool} :
    ∀ xs : List Char, xs.all p = true → xs.takeWhile p = xs ∧ xs.dropWhile p = [] := by
  intro xs
  induction xs with
  | nil => intro _; simp
  | cons x t ih =>
    intro hall
    simp only [List.all_cons, Bool.and_eq_true] at hall
    have := ih hall.2
    simp [List.takeWhile_cons, List.dropWhile_cons, hall.1, this.1, this.2]

/-! ### The strptime/isoformat round trip -/

theorem daysInMonth_le (y m : Nat) : daysInMonth y m ≤ 31 := by
  unfold daysInMonth
  split
  · split <;> norm_num
  · split <;> norm_num

theorem parseIsoChars_isoChars {d : PDate} (h : d.Valid) : parseIsoChars d.isoChars = some d := by
  obtain ⟨hy1, hy2, hm1, hm2, hd1, hd2⟩ := h
  have hdm : d.day ≤ 31 := le_trans hd2 (daysInMonth_le _ _)
  have hp4 : (10 : Nat) ^ 4 = 10000 := by norm_num
  have hp2 : (10 : Nat) ^ 2 = 100 := by norm_num
  have hy4 : (padChars 4 d.year).length = 4 :=
    padChars_length (by norm_num) (by rw [hp4]; omega)
  have hml : (padChars 2 d.month).length = 2 :=
    padChars_length (by norm_num) (by rw [hp2]; omega)
  have hdl : (padChars 2 d.day).length = 2 :=
    padChars_length (by norm_num) (by rw [hp2]; omega)
  have hminus : isDigitCh '-' = false := by decide
  have t1 := takeWhile_append_all (padChars 4 d.year)
    ('-' :: (padChars 2 d.month ++ '-' :: padChars 2 d.day)) (padChars_all_digits 4 d.year)
  have t2 := takeWhile_cons_neg (p := isDigitCh)
    (padChars 2 d.month ++ '-' :: padChars 2 d.day) hminus
  have t3 := takeWhile_append_all (padChars 2 d.month)
    ('-' :: padChars 2 d.day) (padChars_all_digits 2 d.month)
  have t4 := takeWhile_cons_neg (p := isDigitCh) (padChars 2 d.day) hminus
  have t5 := takeWhile_all_self (padChars 2 d.day) (padChars_all_digits 2 d.day)
  have hvalid : 1 ≤ d.year ∧ d.year ≤ 9999 ∧ 1 ≤ d.month ∧ d.month ≤ 12 ∧
      1 ≤ d.day ∧ d.day ≤ daysInMonth d.year d.month :=
    ⟨hy1, hy2, hm1, hm2, hd1, hd2⟩
  simp only [parseIsoChars, PDate.isoChars]
  rw [t1.1, t1.2, t2.1, t2.2, List.append_nil, hy4]
  simp only [if_pos rfl]
  rw [t3.1, t3.2, t4.1, t4.2, List.append_nil, hml]
  simp [t5.1, t5.2, hdl, chainVal_padChars, mkDate?, hvalid]

theorem parseIso_isoformat {d : PDate} (h : d.Valid) : parseIso d.isoformat = some d := by
  unfold parseIso PDate.isoformat
  exact parseIsoChars_isoChars h

/-! ### Reading back the serialized row -/

theorem getD_to_row_product_no (p : Product) (d : RawValue) :
    (p.to_row).getD "product_no" d = .str p.product_no := rfl

theorem getD_to_row_name (p : Product) (d : RawValue) :
    (p.to_row).getD "name" d = .str p.name := rfl

theorem getD_to_row_store_name (p : Product) (d : RawValue) :
    (p.to_row).getD "store_name" d = .str p.store_name := rfl

theorem getD_to_row_purchase_date (p : Product) (d : RawValue) :
    (p.to_row).getD "purchase_date" d = .str p.purchase_date.isoformat := rfl

theorem getD_to_row_purchase_price (p : Product) (d : RawValue) :
    (p.to_row).getD "purchase_price" d = .int p.purchase_price := rfl

theorem getD_to_row_sale_status (p : Product) (d : RawValue) :
    (p.to_row).getD "sale_status" d = .str p.sale_status := rfl

theorem getD_to_row_listed_date (p : Product) (d : RawValue) :
    (p.to_row).getD "listed_date" d = .str (serialDate p.listed_date) := rfl

theorem getD_to_row_sale_date (p : Product) (d : RawValue) :
    (p.to_row).getD "sale_date" d = .str (serialDate p.sale_date) := rfl

theorem getD_to_row_sale_price (p : Product) (d : RawValue) :
    (p.to_row).getD "sale_price" d = serialInt p.sale_price := rfl

theorem getD_to_row_sales_channel (p : Product) (d : RawValue) :
    (p.to_row).getD "sales_channel" d = .str (serialStr p.sales_channel) := rfl

theorem getD_to_row_shipping_cost (p : Product) (d : RawValue) :
    (p.to_row).getD "shipping_cost" d = serialInt p.shipping_cost := rfl

theorem getD_to_row_is_archived (p : Product) (d : RawValue) :
    (p.to_row).getD "is_archived" d = .bool p.is_archived := rfl

theorem getD_to_row_revision (p : Product) (d : RawValue) :
    (p.to_row).getD "revision" d = .str p.revision := rfl

theorem isoformat_ne_empty (d : PDate) : d.isoformat ≠ "" := by
  have h1 : d.isoChars ≠ [] := by
    simp only [PDate.isoChars]
    intro h
    rcases List.append_eq_nil.mp h with ⟨_, h2⟩
    cases h2
  intro h
  apply h1
  have h3 : d.isoformat.data = ("" : String).data := by rw [h]
  simpa [PDate.isoformat] using h3

theorem toDateReq_isoformat {d : PDate} (h : d.Valid) (f : String) :
    toDateReq (.str d.isoformat) f = .ok d := by
  simp [toDateReq, isNoneOrEmpty, isoformat_ne_empty d, parseIso_isoformat h]

theorem toDateOpt_isoformat {d : PDate} (h : d.Valid) (f : String) :
    toDateOpt (.str d.isoformat) f = .ok (some d) := by
  simp [toDateOpt, isNoneOrEmpty, isoformat_ne_empty d, parseIso_isoformat h]

theorem toDateOpt_serial {o : Option PDate} (h : optPDateValid o) (f : String) :
    toDateOpt (.str (serialDate o)) f = .ok o := by
  cases o with
  | none => rfl
  | some d => exact toDateOpt_isoformat h f

theorem toIntOpt_serial (o : Option Int) (f : String) :
    toIntOpt (serialInt o) f = .ok o := by
  cases o <;> rfl

theorem chan_serial {o : Option String} (h : OptStripInv o) :
    (if pyStripS (serialStr o) = "" then none
      else some (pyStripS (serialStr o))) = o := by
  cases o with
  | none => simp [serialStr, show pyStripS "" = "" from rfl]
  | some s =>
    obtain ⟨hs1, hs2⟩ := h
    simp [serialStr, hs1, hs2]

theorem optNeg_false {o : Option Int} (h : optNonneg o) :
    (match o with | some v => decide (v < 0) | none => false) = false := by
  cases o with
  | none => rfl
  | some v =>
    simp only [optPDateValid, optNonneg] at h
    simpa using not_lt_of_le h

theorem arch_serial (b : Bool) :
    decide (pyLower (pyStr (.bool b)) ∈ (["true", "1", "yes"] : List String)) = b := by
  cases b <;> decide

theorem toIntReq_int (n : Int) (f : String) : toIntReq (.int n) f = .ok n := rfl

theorem pyStr_str (s : String) : pyStr (.str s) = s := rfl

theorem from_row_to_row_eq (p : Product) (hv : p.ValidRec)
    (h1 : pyStripS p.product_no = p.product_no)
    (h2 : pyStripS p.name = p.name)
    (h3 : pyStripS p.store_name = p.store_name)
    (h4 : OptStripInv p.sales_channel) :
    Product.from_row p.to_row =
      .ok { p with revision := pyStripS p.revision, updated_at := none } := by
  obtain ⟨pno, nm, snm, pd, pp, ss, ld, sd, sp, sc, sh, ar, rv, ua⟩ := p
  obtain ⟨hpno, hname, hstore, hpd, hld, hsd, hstatus, hpp, hsp, hsc⟩ := hv
  dsimp only at h1 h2 h3 h4 hpno hname hstore hpd hld hsd hstatus hpp hsp hsc ⊢
  have hstat : pyStripS ss = ss ∧ ¬ss = "" := by
    rcases (by simpa [ALLOWED_SALE_STATUS] using hstatus :
        ss = "未出品" ∨ ss = "出品済" ∨ ss = "売却済") with h | h | h <;>
      rw [h] <;> exact ⟨by decide, by decide⟩
  simp only [Product.from_row, getD_to_row_product_no, getD_to_row_name,
    getD_to_row_store_name, getD_to_row_purchase_date, getD_to_row_purchase_price,
    getD_to_row_sale_status, getD_to_row_listed_date, getD_to_row_sale_date,
    getD_to_row_sale_price, getD_to_row_sales_channel, getD_to_row_shipping_cost,
    getD_to_row_is_archived, getD_to_row_revision, pyStr_str]
  rw [h1, h2, h3, hstat.1]
  rw [if_neg hpno, if_neg hname, if_neg hstore]
  rw [toDateReq_isoformat hpd, toDateOpt_serial hld, toDateOpt_serial hsd,
    toIntReq_int, toIntOpt_serial, toIntOpt_serial]
  simp only [if_neg hstat.2]
  rw [chan_serial h4, arch_serial]
  rcases sp with _ | v
  · rcases sh with _ | w
    · simp [if_neg (not_not_intro hstatus), if_neg (not_lt_of_le hpp)]
    · simp only [optNonneg] at hsc
      simp [if_neg (not_not_intro hstatus), if_neg (not_lt_of_le hpp), not_lt_of_le hsc]
  · simp only [optNonneg] at hsp
    rcases sh with _ | w
    · simp [if_neg (not_not_intro hstatus), if_neg (not_lt_of_le hpp), not_lt_of_le hsp]
    · simp only [optNonneg] at hsc
      simp [if_neg (not_not_intro hstatus), if_neg (not_lt_of_le hpp), not_lt_of_le hsp,
        not_lt_of_le hsc]

/-! ### str.strip is idempotent -/

theorem dropWhile_idem {p : Char → Bool} : ∀ cs : List Char,
    (cs.dropWhile p).dropWhile p = cs.dropWhile p := by
  intro cs
  induction cs with
  | nil => rfl
  | cons c t ih =>
    by_cases h : p c = true
    · simp [List.dropWhile_cons, h, ih]
    · simp [List.dropWhile_cons, h]

theorem dropWhile_append_last {p : Char → Bool} (ys : List Char) (c : Char) :
    (ys ++ [c]).dropWhile p = [] ∨ ∃ ys2, (ys ++ [c]).dropWhile p = ys2 ++ [c] := by
  induction ys with
  | nil =>
    by_cases h : p c = true
    · left; simp [h]
    · right; exact ⟨[], by simp [h]⟩
  | cons y t ih =>
    by_cases h : p y = true
    · simpa [List.dropWhile_cons, h] using ih
    · right; exact ⟨y :: t, by simp [List.dropWhile_cons, h]⟩

theorem dropWhile_of_dropEnd {p : Char → Bool} (cs : List Char)
    (h : cs.dropWhile p = cs) :
    ((cs.reverse.dropWhile p).reverse).dropWhile p = (cs.reverse.dropWhile p).reverse := by
  cases cs with
  | nil => rfl
  | cons c t =>
    have hc : p c = false := by
      by_cases hb : p c = true
      · exfalso
        simp only [List.dropWhile_cons, hb, if_true] at h
        have hlen := congrArg List.length h
        have hle : ∀ xs : List Char, (xs.dropWhile p).length ≤ xs.length := by
          intro xs
          induction xs with
          | nil => simp
          | cons x u ihx =>
            by_cases hx : p x = true
            · simp only [List.dropWhile_cons, hx, if_true, List.length_cons]
              omega
            · simp [List.dropWhile_cons, hx]
        have := hle t
        simp at hlen
        omega
      · simpa using hb
    have hrev : (c :: t).reverse = t.reverse ++ [c] := by simp
    rcases dropWhile_append_last (p := p) t.reverse c with h1 | ⟨ys2, h1⟩
    · rw [hrev, h1]; rfl
    · rw [hrev, h1]
      simp [List.reverse_append, List.dropWhile_cons, hc]

theorem stripChars_idem (cs : List Char) : stripChars (stripChars cs) = stripChars cs := by
  unfold stripChars
  have h1 := dropWhile_of_dropEnd (p := isSpaceCh) (cs.dropWhile isSpaceCh)
    (dropWhile_idem (p := isSpaceCh) cs)
  rw [h1]
  rw [List.reverse_reverse]
  rw [dropWhile_idem]

theorem pyStripS_idem (s : String) : pyStripS (pyStripS s) = pyStripS s := by
  unfold pyStripS
  rw [show (String.mk (stripChars s.data)).data = stripChars s.data from rfl]
  rw [stripChars_idem]

/-! ### Dict lemmas -/

theorem Row.get?_set_self : ∀ (r : Row) (k : String) (v : RawValue),
    (r.set k v).get? k = some v := by
  intro r k v
  induction r with
  | nil => simp [Row.set, Row.get?, List.find?]
  | cons h0 t ih =>
    obtain ⟨k0, v0⟩ := h0
    by_cases hk : k0 = k
    · subst hk
      simp [Row.set, Row.get?, List.find?]
    · simp only [Row.set, if_neg hk]
      simp only [Row.get?, List.find?] at ih ⊢
      simpa [hk] using ih

theorem Row.get?_set_other : ∀ (r : Row) {k k' : String}, k' ≠ k → ∀ (v : RawValue),
    (r.set k v).get? k' = r.get? k' := by
  intro r k k' hne v
  have hne' : ¬k = k' := fun h => hne h.symm
  induction r with
  | nil => simp [Row.set, Row.get?, List.find?, hne']
  | cons h0 t ih =>
    obtain ⟨k0, v0⟩ := h0
    by_cases hk : k0 = k
    · subst hk
      simp [Row.set, Row.get?, List.find?, hne']
    · by_cases hk' : k0 = k'
      · subst hk'
        simp [Row.set, hk, Row.get?, List.find?]
      · simp only [Row.set, if_neg hk]
        simp only [Row.get?, List.find?] at ih ⊢
        simpa [hk'] using ih

theorem Row.get?_setdefault_other (r : Row) {k k' : String} (h : k' ≠ k) (v : RawValue) :
    (r.setdefault k v).get? k' = r.get? k' := by
  unfold Row.setdefault
  by_cases hs : (r.get? k).isSome
  · rw [if_pos hs]
  · rw [if_neg hs]
    unfold Row.get?
    rw [List.find?_append]
    cases hf : r.find? (fun p => decide (p.1 = k')) with
    | some q => simp
    | none =>
      simp only [Option.none_or]
      simp only [List.find?]
      have hkk : ¬k = k' := fun hh => h hh.symm
      simp [hkk]

theorem Row.getD_set_self (r : Row) (k : String) (v d : RawValue) :
    (r.set k v).getD k d = v := by
  unfold Row.getD
  rw [Row.get?_set_self]
  rfl

/-! ### Structural facts about from_row -/

theorem from_row_ok_product_no {row : Row} {p : Product}
    (h : Product.from_row row = .ok p) :
    p.product_no = pyStripS (pyStr (row.getD "product_no" (.str ""))) := by
  simp only [Product.from_row] at h
  repeat' split at h
  all_goals cases h
  all_goals rfl

/-- The input row's sale-status cell is blank: absent, or a value whose
string form strips to the empty string. -/
def BlankStatus (row : Row) : Prop :=
  ∀ v, row.get? "sale_status" = some v → pyStripS (pyStr v) = ""

theorem from_row_blank_status (row : Row) (hb : BlankStatus row) :
    Product.from_row row = Product.from_row (row.set "sale_status" (.str "未出品")) := by
  have hkey : ∀ k : String, k ≠ "sale_status" → ∀ d : RawValue,
      (row.set "sale_status" (.str "未出品")).getD k d = row.getD k d := by
    intro k hk d
    unfold Row.getD
    rw [Row.get?_set_other _ hk]
  have hnonb : pyStripS "未出品" = "未出品" := by decide
  have hne : ("未出品" : String) ≠ "" := by decide
  have hL : (if pyStripS (pyStr (row.getD "sale_status" (.str "未出品"))) = "" then "未出品"
      else pyStripS (pyStr (row.getD "sale_status" (.str "未出品")))) = "未出品" := by
    cases hv : row.get? "sale_status" with
    | none =>
      unfold Row.getD
      rw [hv]
      simp only [Option.getD, pyStr_str, hnonb]
      rw [if_neg hne]
    | some v =>
      have hbv := hb v hv
      unfold Row.getD
      rw [hv]
      simp only [Option.getD]
      rw [if_pos hbv]
  have hR : (if pyStripS (pyStr ((row.set "sale_status" (.str "未出品")).getD "sale_status"
        (.str "未出品"))) = "" then "未出品"
      else pyStripS (pyStr ((row.set "sale_status" (.str "未出品")).getD "sale_status"
        (.str "未出品")))) = "未出品" := by
    rw [Row.getD_set_self, pyStr_str, hnonb, if_neg hne]
  simp only [Product.from_row]
  rw [hL, hR]
  rw [hkey "product_no" (by decide) (.str ""), hkey "name" (by decide) (.str ""),
    hkey "store_name" (by decide) (.str ""), hkey "sales_channel" (by decide) (.str ""),
    hkey "is_archived" (by decide) (.str ""), hkey "revision" (by decide) (.str ""),
    hkey "purchase_date" (by decide) (.str ""), hkey "purchase_price" (by decide) (.str ""),
    hkey "listed_date" (by decide) (.str ""), hkey "sale_date" (by decide) (.str ""),
    hkey "sale_price" (by decide) (.str ""), hkey "shipping_cost" (by decide) (.str "")]

theorem from_row_invalid_status (row : Row)
    (h1 : pyStripS (pyStr (row.getD "sale_status" (.str "未出品"))) ∉ ALLOWED_SALE_STATUS)
    (h2 : pyStripS (pyStr (row.getD "sale_status" (.str "未出品"))) ≠ "") :
    ∃ e, Product.from_row row = .error e := by
  simp only [Product.from_row]
  repeat' split
  all_goals exact ⟨_, rfl⟩

/-! ### The date normalizer never produces an empty string -/

theorem toIsoDate_some_ne_empty {t : Nat} {s x : String}
    (h : toIsoDate t s = some x) : x ≠ "" := by
  simp only [toIsoDate] at h
  by_cases h0 : s = ""
  · rw [if_pos h0] at h; cases h
  rw [if_neg h0] at h
  by_cases h1 : stripChars s.data = []
  · rw [if_pos h1] at h; cases h
  rw [if_neg h1] at h
  repeat' split at h
  all_goals cases h
  all_goals (intro hx; have hd := congrArg String.data hx; simp at hd)

/-! ### Create-path helpers -/

theorem find_slot_stripped {cfg : ColMap} {sheet : SheetRows} {r : Nat} {spno : String}
    (h : find_first_insertable_jp_row cfg sheet = some (r, spno)) :
    pyStripS spno = spno := by
  unfold find_first_insertable_jp_row at h
  split at h
  · cases h
  · split at h
    · rename_i pc nc hpc hnc
      rcases hf : ((List.range sheet.length).find? (fun i =>
          decide (4 ≤ i) &&
            (pyStripS (rowCell (sheet.getD i []) pc) ≠ "") &&
            (pyStripS (rowCell (sheet.getD i []) nc) = ""))) with _ | i
      · rw [hf] at h; cases h
      · rw [hf] at h
        simp only [Option.map] at h
        injection h with h2
        injection h2 with h3 h4
        rw [← h4]
        exact pyStripS_idem _
    · cases h

set_option maxHeartbeats 1000000 in
theorem create_ok_product_no {hash : String → String} {cfg : ColMap} {t : Nat}
    {sheet : SheetRows} {payload : Row} {p : Product} {eff : List Effect} {sh2 : SheetRows}
    (hok : create_product hash cfg t sheet payload = (.ok p, eff, sh2)) :
    p.product_no = pyStripS (pyStr ((create_data hash cfg t sheet payload).getD
      "product_no" (.str ""))) := by
  unfold create_product at hok
  dsimp only at hok
  rcases hfr : Product.from_row (create_data hash cfg t sheet payload) with e | product
  · rw [hfr] at hok
    exact absurd (congrArg Prod.fst hok) (by simp)
  · rw [hfr] at hok
    dsimp only at hok
    have hpn := from_row_ok_product_no hfr
    rw [← hpn]
    rcases hsl : find_first_insertable_jp_row cfg sheet with _ | rs
    · rw [hsl] at hok
      dsimp only at hok
      rcases hap : appendRowData cfg (create_pno_raw hash cfg t sheet payload) product
          with e | rowData
      · rw [hap] at hok
        exact absurd (congrArg Prod.fst hok) (by simp)
      · rw [hap] at hok
        dsimp only at hok
        rw [Prod.mk.injEq] at hok
        have h3 := congrArg Product.product_no (Except.ok.inj hok.1)
        rw [apply_ite Product.product_no] at h3
        dsimp only at h3
        rw [ite_self] at h3
        exact h3.symm
    · obtain ⟨r, spno⟩ := rs
      rw [hsl] at hok
      dsimp only at hok
      rcases hap : apply_updates_to_jp_row cfg product
          (if product.sale_status = "出品済" then product.listed_date else none)
          with e | ups
      · rw [hap] at hok
        exact absurd (congrArg Prod.fst hok) (by simp)
      · rw [hap] at hok
        dsimp only at hok
        rw [Prod.mk.injEq] at hok
        have h3 := congrArg Product.product_no (Except.ok.inj hok.1)
        rw [apply_ite Product.product_no] at h3
        dsimp only at h3
        rw [ite_self] at h3
        exact h3.symm

/-- C2 (amended): when the creation payload supplies no truthy product
number, a create that finds an insertable slot and validates successfully
returns a Record whose product number equals that slot's existing product
number; a truthy payload product number would take precedence instead. -/
theorem claim_C2_slot_number_fallback (hash : String → String) (cfg : ColMap) (t : Nat)
    (sheet : SheetRows) (payload : Row) (r : Nat) (spno : String) (p : Product)
    (eff : List Effect) (sh2 : SheetRows)
    (hslot : find_first_insertable_jp_row cfg sheet = some (r, spno))
    (hpno : ∀ v, payload.get? "product_no" = some v → pyTruthy v = false)
    (hok : create_product hash cfg t sheet payload = (.ok p, eff, sh2)) :
    p.product_no = spno := by
  have h1 := create_ok_product_no hok
  have hraw : create_pno_raw hash cfg t sheet payload = .str spno := by
    unfold create_pno_raw
    rw [hslot]
    dsimp only
    cases hv : payload.get? "product_no" with
    | none => rfl
    | some v => simp [hpno v hv]
  have hdata : (create_data hash cfg t sheet payload).getD "product_no" (.str "") =
      create_pno_raw hash cfg t sheet payload := by
    unfold create_data Row.getD
    rw [Row.get?_setdefault_other _ (by decide), Row.get?_setdefault_other _ (by decide),
      Row.get?_setdefault_other _ (by decide), Row.get?_setdefault_other _ (by decide),
      Row.get?_setdefault_other _ (by decide), Row.get?_setdefault_other _ (by decide),
      Row.get?_setdefault_other _ (by decide), Row.get?_set_self]
    rfl
  rw [h1, hdata, hraw, pyStr_str]
  rw [find_slot_stripped hslot]

/-- C9 (amended): on the slot-insertion path, `create_product` DOES
write the product-number cell first — `ws.update_cell(insert_row,
product_no_col, product_no)` — and then writes the other bound columns
produced by `_apply_updates_to_jp_row`. -/
theorem claim_C9_slot_writes (hash : String → String) (cfg : ColMap) (t : Nat)
    (sheet : SheetRows) (payload : Row) (r : Nat) (spno : String) (pc : Nat)
    (product : Product) (ups : List (Nat × RawValue))
    (hslot : find_first_insertable_jp_row cfg sheet = some (r, spno))
    (hcol : cfg.product_no = some pc)
    (hpc : pc ≠ 0)
    (hfr : Product.from_row (create_data hash cfg t sheet payload) = .ok product)
    (hap : apply_updates_to_jp_row cfg product
      (if product.sale_status = "出品済" then product.listed_date else none) = .ok ups) :
    (create_product hash cfg t sheet payload).2.1 =
      .updateCell r pc (create_pno_raw hash cfg t sheet payload) ::
        ups.map (fun cv => .updateCell r cv.1 cv.2) := by
  unfold create_product
  rw [hfr]
  dsimp only
  rw [hslot]
  dsimp only
  rw [hcol, hap]
  dsimp only
  rw [if_pos hpc]
  rfl

/-- C1: when `update_product` locates the target row and the row's
current revision token differs from the caller's expected revision, the
operation returns the conflict error (ExternalUpdateDetectedError), issues
no write, and leaves the sheet unchanged — the revision comparison happens
before any write call. -/
theorem claim_C1_conflict_aborts_update (hash : String → String) (cfg : ColMap) (t : Nat)
    (sheet : SheetRows) (product_no : String) (updates : Row)
    (expected_revision : String) (pc tr : Nat)
    (hlen : ¬sheet.length < 5)
    (hcol : cfg.product_no = some pc)
    (htr : findTargetRow pc sheet product_no = some tr)
    (hrev : rowRevision hash (sheet.getD (tr - 1) []) ≠ expected_revision) :
    update_product hash cfg t sheet product_no updates expected_revision =
      (.error .conflict, [], sheet) := by
  unfold update_product
  rw [if_neg hlen, hcol]
  dsimp only
  rw [htr]
  dsimp only
  rw [if_pos hrev]

/-- C7: when the merged record (the current record's serialized form
overlaid with the partial update map) fails Record validation,
`update_product` returns that validation error, issues no cell write, and
leaves the sheet unchanged. -/
theorem claim_C7_merge_validation_aborts (hash : String → String) (cfg : ColMap) (t : Nat)
    (sheet : SheetRows) (product_no : String) (updates : Row)
    (expected_revision : String) (pc tr : Nat) (current : Product) (msg : String)
    (hlen : ¬sheet.length < 5)
    (hcol : cfg.product_no = some pc)
    (htr : findTargetRow pc sheet product_no = some tr)
    (hrev : rowRevision hash (sheet.getD (tr - 1) []) = expected_revision)
    (hcur : Product.from_row (record_from_jp_row hash cfg t (sheet.getD (tr - 1) [])) =
      .ok current)
    (hmerge : Product.from_row (((current.to_row).dictUpdate updates).set "product_no"
      (.str product_no)) = .error msg) :
    update_product hash cfg t sheet product_no updates expected_revision =
      (.error (.validation msg), [], sheet) := by
  unfold update_product
  rw [if_neg hlen, hcol]
  dsimp only
  rw [htr]
  dsimp only
  rw [if_neg (not_not_intro hrev)]
  rw [hcur]
  dsimp only
  rw [hmerge]

theorem from_row_ok_sale_status {row : Row} {p : Product}
    (h : Product.from_row row = .ok p) :
    p.sale_status = (if pyStripS (pyStr (row.getD "sale_status" (.str "未出品"))) = ""
      then "未出品" else pyStripS (pyStr (row.getD "sale_status" (.str "未出品")))) := by
  simp only [Product.from_row] at h
  repeat' split at h
  all_goals cases h
  all_goals (split <;> simp_all)

/-- C6: for every Record with salePrice absent, profit is absent; for
every Record with salePrice v, profit equals v minus purchasePrice minus
shippingCost, with an absent shippingCost treated as 0. -/
theorem claim_C6_profit (p : Product) :
    (p.sale_price = none → p.profit = none) ∧
    (∀ v, p.sale_price = some v →
      p.profit = some (v - p.purchase_price - p.shipping_cost.getD 0)) := by
  constructor
  · intro h; simp [Product.profit, h]
  · intro v h
    simp only [Product.profit, h]
    congr 2
    rcases p.shipping_cost with _ | w
    · rfl
    · simp only [pyOrZero, Option.getD]
      by_cases hw : w = 0 <;> simp [hw]

/-- C8: contrary to the claim, the serialized row map of a Record has
exactly fourteen keys and no handling-fee key, and the Product model
carries no handlingFee attribute — so `_apply_updates_to_jp_row` raises
AttributeError whenever the handling-fee column is bound (truthy). -/
theorem claim_C8_handling_fee_missing :
    (∀ p : Product, (p.to_row).keys =
      ["product_no", "name", "store_name", "purchase_date", "purchase_price",
       "sale_status", "listed_date", "sale_date", "sale_price", "sales_channel",
       "shipping_cost", "is_archived", "revision", "updated_at"] ∧
      "handling_fee" ∉ (p.to_row).keys) ∧
    (∀ (cfg : ColMap) (p : Product) (ld : Option PDate) (c : Nat),
      apply_updates_to_jp_row { cfg with handling_fee := some (c + 1) } p ld =
        .error .attributeError) := by
  constructor
  · intro p
    refine ⟨rfl, ?_⟩
    rw [show (p.to_row).keys =
      ["product_no", "name", "store_name", "purchase_date", "purchase_price",
       "sale_status", "listed_date", "sale_date", "sale_price", "sales_channel",
       "shipping_cost", "is_archived", "revision", "updated_at"] from rfl]
    decide
  · intro cfg p ld c
    simp [apply_updates_to_jp_row, colTruthy]

/-- C10: a row map whose sale-status value is absent, empty or
whitespace-only deserializes exactly like the same row with the status set
to 未出品 (NotListed), and a successful deserialization of such a row
carries sale status 未出品; any non-empty status outside the three enum
labels makes `from_row` fail with a validation error. -/
theorem claim_C10_blank_status_default :
    (∀ row : Row, BlankStatus row →
      Product.from_row row = Product.from_row (row.set "sale_status" (.str "未出品"))) ∧
    (∀ (row : Row) (p : Product), BlankStatus row → Product.from_row row = .ok p →
      p.sale_status = "未出品") ∧
    (∀ row : Row,
      pyStripS (pyStr (row.getD "sale_status" (.str "未出品"))) ∉ ALLOWED_SALE_STATUS →
      pyStripS (pyStr (row.getD "sale_status" (.str "未出品"))) ≠ "" →
      ∃ e, Product.from_row row = .error e) := by
  refine ⟨from_row_blank_status, ?_, from_row_invalid_status⟩
  intro row p hb hok
  rw [from_row_ok_sale_status hok]
  cases hv : row.get? "sale_status" with
  | none =>
    unfold Row.getD
    rw [hv]
    simp only [Option.getD, pyStr_str]
    rw [if_neg (by decide : ¬pyStripS "未出品" = "")]
    decide
  | some v =>
    have hbv := hb v hv
    unfold Row.getD
    rw [hv]
    simp only [Option.getD]
    rw [if_pos hbv]

/-- The sale-status entry of `_record_from_jp_row`, read back verbatim
from the construction. -/
theorem status_lhs_compute (hash : String → String) (cfg : ColMap) (t : Nat)
    (row : List String) :
    (record_from_jp_row hash cfg t row).getD "sale_status" .pyNone =
      .str (if ((match toIsoDate t (cellOf row cfg.sale_date) with
                  | some d => decide (d ≠ "") | none => false) ||
                (match floatIntVal? (cellOf row cfg.sale_price) with
                  | some v => decide (0 < v) | none => false)) then "売却済"
        else if pyLower (pyStripS (cellOf row cfg.listed_flag)) ∈ LISTED_AFFIRMATIVE then "出品済"
        else "未出品") := rfl

/-- C4: when reconstructing a Record from an external row, the derived
sale status follows this precedence with first match winning: if the
sale-date cell parses to a date OR the sale-price cell parses to a
positive integer, the status is Sold (売却済); otherwise if the legacy
listed-flag cell, lower-cased, matches the affirmative token set, the
status is Listed (出品済); otherwise the status is NotListed (未出品). -/
theorem claim_C4_sale_status_precedence (hash : String → String) (cfg : ColMap) (t : Nat) (row : List String) :
    (record_from_jp_row hash cfg t row).getD "sale_status" .pyNone =
      .str (if (toIsoDate t (cellOf row cfg.sale_date)).isSome ∨
               0 < (floatIntVal? (cellOf row cfg.sale_price)).getD 0 then "売却済"
        else if pyLower (pyStripS (cellOf row cfg.listed_flag)) ∈ LISTED_AFFIRMATIVE then "出品済"
        else "未出品") := by
  rw [status_lhs_compute]
  congr 1
  rcases hsd : toIsoDate t (cellOf row cfg.sale_date) with _ | d
  · rcases hsp : floatIntVal? (cellOf row cfg.sale_price) with _ | v
    · simp
    · by_cases hv : 0 < v
      · simp [hv]
      · simp [hv]
  · have hne := toIsoDate_some_ne_empty hsd
    simp [hne]

/-- C3 (amended): for every validly constructed Record whose required
string fields are strip-invariant and whose sales channel is absent or a
strip-invariant non-empty string, deserializing the serialized row map
(from_row after to_row) yields a Record equal to the original in every
field except revision and updatedAt. -/
theorem claim_C3_roundtrip_strip_invariant (p : Product) (hv : p.ValidRec)
    (h1 : pyStripS p.product_no = p.product_no)
    (h2 : pyStripS p.name = p.name)
    (h3 : pyStripS p.store_name = p.store_name)
    (h4 : OptStripInv p.sales_channel) :
    ∃ q, Product.from_row p.to_row = .ok q ∧
      q.product_no = p.product_no ∧ q.name = p.name ∧ q.store_name = p.store_name ∧
      q.purchase_date = p.purchase_date ∧ q.purchase_price = p.purchase_price ∧
      q.sale_status = p.sale_status ∧ q.listed_date = p.listed_date ∧
      q.sale_date = p.sale_date ∧ q.sale_price = p.sale_price ∧
      q.sales_channel = p.sales_channel ∧ q.shipping_cost = p.shipping_cost ∧
      q.is_archived = p.is_archived :=
  ⟨{ p with revision := pyStripS p.revision, updated_at := none },
    from_row_to_row_eq p hv h1 h2 h3 h4,
    rfl, rfl, rfl, rfl, rfl, rfl, rfl, rfl, rfl, rfl, rfl, rfl⟩

/-- C3 counterexample: a validly constructed Record with a padded name
does not round-trip — from_row(to_row(record)) strips the name, so the
results differ in a field other than revision/updatedAt. -/
theorem claim_C3_falsified :
    prodPadNameEx.ValidRec ∧
    Product.from_row prodPadNameEx.to_row = .ok { prodPadNameEx with name := "Levis" } ∧
    ("Levis" : String) ≠ prodPadNameEx.name :=
  ⟨by decide, by rfl, by decide⟩

/-- C3 witness: the amended round-trip law at a concrete strip-invariant
Record. -/
theorem claim_C3_witness :
    ∃ q, Product.from_row prodCleanEx.to_row = .ok q ∧
      q.product_no = prodCleanEx.product_no ∧ q.name = prodCleanEx.name ∧
      q.store_name = prodCleanEx.store_name ∧
      q.purchase_date = prodCleanEx.purchase_date ∧
      q.purchase_price = prodCleanEx.purchase_price ∧
      q.sale_status = prodCleanEx.sale_status ∧
      q.listed_date = prodCleanEx.listed_date ∧
      q.sale_date = prodCleanEx.sale_date ∧ q.sale_price = prodCleanEx.sale_price ∧
      q.sales_channel = prodCleanEx.sales_channel ∧
      q.shipping_cost = prodCleanEx.shipping_cost ∧
      q.is_archived = prodCleanEx.is_archived :=
  claim_C3_roundtrip_strip_invariant prodCleanEx (by decide) (by decide) (by decide)
    (by decide) (by decide)

/-- C1 witness: a concrete update against a stale revision token returns
the conflict error with no writes. -/
theorem claim_C1_witness :
    update_product id cfgEx 2026 sheetFullEx "P00077" [] "stale" =
      (.error .conflict, [], sheetFullEx) :=
  claim_C1_conflict_aborts_update id cfgEx 2026 sheetFullEx "P00077" [] "stale" 1 5
    (by decide) rfl (by decide) (by decide)

/-- C2 counterexample: the slot exists and carries product number P00077,
but a payload that supplies its own product number P99999 wins — the
returned Record does not carry the slot's number. -/
theorem claim_C2_falsified :
    find_first_insertable_jp_row cfgEx sheetEx = some (5, "P00077") ∧
    (create_product id cfgEx 2026 sheetEx payloadPnoEx).1.toOption.map Product.product_no =
      some "P99999" :=
  ⟨by decide, by decide⟩

/-- C2 witness: with no product number in the payload, the created Record
reuses the slot's number. -/
theorem claim_C2_witness :
    ({ prodWEx with revision := "P00077|Coat|ShopB|2024-06-02|7000" } : Product).product_no
      = "P00077" :=
  claim_C2_slot_number_fallback id cfgEx 2026 sheetEx payloadWEx 5 "P00077"
    { prodWEx with revision := "P00077|Coat|ShopB|2024-06-02|7000" }
    [.updateCell 5 1 (.str "P00077"), .updateCell 5 2 (.str "Coat"),
     .updateCell 5 3 (.str "ShopB"), .updateCell 5 4 (.str "2024-06-02"),
     .updateCell 5 5 (.int 7000)]
    [["title"], [], ["商品No", "商品名", "店舗名", "仕入れ日付", "仕入額"], [],
     ["P00077", "Coat", "ShopB", "2024-06-02", "7000"]]
    (by decide) (fun _ hv => Option.noConfusion hv) (by rfl)

/-- C5 counterexample: a slash date with a three-digit year is not among
the claim's accepted formats, yet the normalizer does not map it to an
absent value — it produces a date string verbatim. -/
theorem claim_C5_falsified : toIsoDate 2026 "1/2/123" = some "123-01-02" := by decide

/-- C6 witness: profit of a sold Record without shipping cost, and absence
of profit without a sale price. -/
theorem claim_C6_witness :
    prodSoldEx.profit = some (9000 - prodSoldEx.purchase_price -
      prodSoldEx.shipping_cost.getD 0) ∧
    ({ prodSoldEx with sale_price := none } : Product).profit = none :=
  ⟨(claim_C6_profit prodSoldEx).2 9000 rfl,
   (claim_C6_profit { prodSoldEx with sale_price := none }).1 rfl⟩

/-- C7 witness: a concrete merge that empties the name aborts the update
with the validation error and no writes. -/
theorem claim_C7_witness :
    update_product id cfgEx 2026 sheetFullEx "P00077" [("name", .str "")] revEx =
      (.error (.validation "name is required"), [], sheetFullEx) :=
  claim_C7_merge_validation_aborts id cfgEx 2026 sheetFullEx "P00077"
    [("name", .str "")] revEx 1 5 prodCurEx "name is required"
    (by decide) rfl (by decide) (by rfl) (by rfl) (by rfl)

/-- C9 counterexample: on a concrete slot insertion the very first write
issued is to the product-number cell (row 5, column 1 — the bound
product-number column). -/
theorem claim_C9_falsified :
    cfgEx.product_no = some 1 ∧
    (create_product id cfgEx 2026 sheetEx payloadEx).2.1 =
      [.updateCell 5 1 (.str "P00077"), .updateCell 5 2 (.str "Jacket"),
       .updateCell 5 3 (.str "ShopA"), .updateCell 5 4 (.str "2024-05-01"),
       .updateCell 5 5 (.int 5000)] :=
  ⟨rfl, by decide⟩

/-- C9 witness: the amended write sequence at a concrete slot
insertion. -/
theorem claim_C9_witness :
    (create_product id cfgEx 2026 sheetEx payloadWEx).2.1 =
      .updateCell 5 1 (create_pno_raw id cfgEx 2026 sheetEx payloadWEx) ::
        ([((2 : Nat), RawValue.str "Coat"), (3, .str "ShopB"), (4, .str "2024-06-02"),
          (5, .int 7000)].map (fun cv => Effect.updateCell 5 cv.1 cv.2)) :=
  claim_C9_slot_writes id cfgEx 2026 sheetEx payloadWEx 5 "P00077" 1 prodWEx
    [(2, .str "Coat"), (3, .str "ShopB"), (4, .str "2024-06-02"), (5, .int 7000)]
    (by decide) rfl (by decide) (by rfl) (by rfl)

/-- C10 witness: the default and the rejection at concrete rows. -/
theorem claim_C10_witness :
    (Product.from_row rowBlankEx =
      Product.from_row (rowBlankEx.set "sale_status" (.str "未出品"))) ∧
    prodBlankEx.sale_status = "未出品" ∧
    (∃ e, Product.from_row rowBadStatusEx = .error e) :=
  ⟨claim_C10_blank_status_default.1 rowBlankEx
      (by intro v hv; injection hv with h2; subst h2; decide),
   claim_C10_blank_status_default.2.1 rowBlankEx prodBlankEx
      (by intro v hv; injection hv with h2; subst h2; decide) (by rfl),
   claim_C10_blank_status_default.2.2 rowBadStatusEx (by decide) (by decide)⟩

theorem dropWhile_of_head_not {p : Char → Bool} (cs : List Char)
    (h : ∀ c ∈ cs, p c = false) : cs.dropWhile p = cs := by
  cases cs with
  | nil => rfl
  | cons c t => simp [List.dropWhile_cons, h c (by simp)]

theorem stripChars_of_no_space (cs : List Char)
    (h : ∀ c ∈ cs, isSpaceCh c = false) : stripChars cs = cs := by
  unfold stripChars
  rw [dropWhile_of_head_not cs h]
  rw [dropWhile_of_head_not cs.reverse (fun c hc => h c (List.mem_reverse.mp hc))]
  exact List.reverse_reverse cs

theorem digit_not_space {c : Char} (h : isDigitCh c = true) : isSpaceCh c = false := by
  cases hx : isSpaceCh c
  · rfl
  · exfalso
    simp only [isSpaceCh, Bool.or_eq_true, decide_eq_true_eq] at hx
    rcases hx with ((((h1 | h1) | h1) | h1) | h1) | h1 <;> subst h1 <;>
      exact absurd h (by decide)

theorem toIsoDate_strip_id {t : Nat} {cs : List Char} (hne : cs ≠ [])
    (hns : ∀ c ∈ cs, isSpaceCh c = false) :
    toIsoDate t (String.mk cs) =
      (match isoShape? cs with
      | some (ys, ms, ds) =>
        some (String.mk (ys ++ '-' :: (padChars 2 (chainVal ms) ++ '-' ::
          padChars 2 (chainVal ds))))
      | none =>
        match slashShape? cs with
        | some (ms, ds, yOpt) =>
          some (String.mk (natStrChars
            (centuryFix (match yOpt with | some yc => chainVal yc | none => t)) ++
            '-' :: (padChars 2 (chainVal ms) ++ '-' :: padChars 2 (chainVal ds))))
        | none =>
          match monthDayShape? cs with
          | some (ms, ds) =>
            some (String.mk (natStrChars t ++ '-' :: (padChars 2 (chainVal ms) ++ '-' ::
              padChars 2 (chainVal ds))))
          | none => none) := by
  unfold toIsoDate
  have h0 : ¬(String.mk cs = "") := by
    intro h
    apply hne
    have h2 := congrArg String.data h
    simpa using h2
  rw [if_neg h0]
  have h1 : stripChars (String.mk cs).data = cs := stripChars_of_no_space cs hns
  dsimp only
  rw [h1]
  rw [if_neg hne]

theorem isoShape?_mk {ys ms ds : List Char} (hy : ys.all isDigitCh = true)
    (hy4 : ys.length = 4) (hm : DigitChunk12 ms) (hd : DigitChunk12 ds) :
    isoShape? (ys ++ '-' :: (ms ++ '-' :: ds)) = some (ys, ms, ds) := by
  obtain ⟨hma, hm1, hm2⟩ := hm
  obtain ⟨hda, hd1, hd2⟩ := hd
  have hminus : isDigitCh '-' = false := by decide
  have t1 := takeWhile_append_all ys ('-' :: (ms ++ '-' :: ds)) hy
  have t2 := takeWhile_cons_neg (p := isDigitCh) (ms ++ '-' :: ds) hminus
  have t3 := takeWhile_append_all ms ('-' :: ds) hma
  have t4 := takeWhile_cons_neg (p := isDigitCh) ds hminus
  have t5 := takeWhile_all_self ds hda
  simp only [isoShape?]
  rw [t1.1, t1.2, t2.1, t2.2, List.append_nil, hy4]
  simp only [if_pos rfl]
  rw [t3.1, t3.2, t4.1, t4.2, List.append_nil]
  simp [t5.1, t5.2, hm1, hm2, hd1, hd2]

theorem isoShape?_len_ne4 {xs rest : List Char} {c : Char} (hx : xs.all isDigitCh = true)
    (hc : isDigitCh c = false) (hlen : xs.length ≠ 4) :
    isoShape? (xs ++ c :: rest) = none := by
  have t1 := takeWhile_append_all xs (c :: rest) hx
  have t2 := takeWhile_cons_neg (p := isDigitCh) rest hc
  simp only [isoShape?]
  rw [t1.1, t2.1, List.append_nil]
  rw [if_neg hlen]

theorem slashShape?_mk_noYear {ms ds : List Char} (hm : DigitChunk12 ms)
    (hd : DigitChunk12 ds) :
    slashShape? (ms ++ '/' :: ds) = some (ms, ds, none) := by
  obtain ⟨hma, hm1, hm2⟩ := hm
  obtain ⟨hda, hd1, hd2⟩ := hd
  have hslash : isDigitCh '/' = false := by decide
  have t1 := takeWhile_append_all ms ('/' :: ds) hma
  have t2 := takeWhile_cons_neg (p := isDigitCh) ds hslash
  have t5 := takeWhile_all_self ds hda
  simp only [slashShape?]
  rw [t1.1, t1.2, t2.1, t2.2, List.append_nil]
  simp [t5.1, t5.2, hm1, hm2, hd1, hd2]

theorem slashShape?_mk_year {ms ds ys : List Char} (hm : DigitChunk12 ms)
    (hd : DigitChunk12 ds) (hy : ys.all isDigitCh = true)
    (hy2 : 2 ≤ ys.length) (hy4 : ys.length ≤ 4) :
    slashShape? (ms ++ '/' :: (ds ++ '/' :: ys)) = some (ms, ds, some ys) := by
  obtain ⟨hma, hm1, hm2⟩ := hm
  obtain ⟨hda, hd1, hd2⟩ := hd
  have hslash : isDigitCh '/' = false := by decide
  have t1 := takeWhile_append_all ms ('/' :: (ds ++ '/' :: ys)) hma
  have t2 := takeWhile_cons_neg (p := isDigitCh) (ds ++ '/' :: ys) hslash
  have t3 := takeWhile_append_all ds ('/' :: ys) hda
  have t4 := takeWhile_cons_neg (p := isDigitCh) ys hslash
  have t5 := takeWhile_all_self ys hy
  simp only [slashShape?]
  rw [t1.1, t1.2, t2.1, t2.2, List.append_nil]
  have hg : 1 ≤ ms.length ∧ ms.length ≤ 2 := ⟨hm1, hm2⟩
  simp only [if_pos hg]
  rw [t3.1, t3.2, t4.1, t4.2, List.append_nil]
  simp [t5.1, t5.2, hd1, hd2, hy2, hy4]

theorem slashShape?_not_slash {xs rest : List Char} {c : Char}
    (hx : xs.all isDigitCh = true) (hc : isDigitCh c = false) (hne : c ≠ '/') :
    slashShape? (xs ++ c :: rest) = none := by
  have t1 := takeWhile_append_all xs (c :: rest) hx
  have t2 := takeWhile_cons_neg (p := isDigitCh) rest hc
  simp only [slashShape?]
  rw [t1.1, t1.2, t2.1, t2.2, List.append_nil]
  split
  · split
    · rename_i r2 heq
      injection heq with h1 _
      exact absurd h1 hne
    · rfl
  · rfl

theorem monthDayShape?_mk {ms ds rest : List Char} (hm : DigitChunk12 ms)
    (hd : DigitChunk12 ds) :
    monthDayShape? (ms ++ '月' :: (ds ++ '日' :: rest)) = some (ms, ds) := by
  obtain ⟨hma, hm1, hm2⟩ := hm
  obtain ⟨hda, hd1, hd2⟩ := hd
  have hmo : isDigitCh '月' = false := by decide
  have hdy : isDigitCh '日' = false := by decide
  have t1 := takeWhile_append_all ms ('月' :: (ds ++ '日' :: rest)) hma
  have t2 := takeWhile_cons_neg (p := isDigitCh) (ds ++ '日' :: rest) hmo
  have t3 := takeWhile_append_all ds ('日' :: rest) hda
  have t4 := takeWhile_cons_neg (p := isDigitCh) rest hdy
  simp only [monthDayShape?]
  rw [t1.1, t1.2, t2.1, t2.2, List.append_nil]
  have hg : 1 ≤ ms.length ∧ ms.length ≤ 2 := ⟨hm1, hm2⟩
  simp only [if_pos hg]
  rw [t3.1, t3.2, t4.1, t4.2, List.append_nil]
  simp [hd1, hd2]

theorem monthDayShape?_not_month {xs rest : List Char} {c : Char}
    (hx : xs.all isDigitCh = true) (hc : isDigitCh c = false) (hne : c ≠ '月') :
    monthDayShape? (xs ++ c :: rest) = none := by
  have t1 := takeWhile_append_all xs (c :: rest) hx
  have t2 := takeWhile_cons_neg (p := isDigitCh) rest hc
  simp only [monthDayShape?]
  rw [t1.1, t1.2, t2.1, t2.2, List.append_nil]
  split
  · split
    · rename_i r2 heq
      injection heq with h1 _
      exact absurd h1 hne
    · rfl
  · rfl

theorem isoShape?_inv {cs ys ms ds : List Char}
    (h : isoShape? cs = some (ys, ms, ds)) :
    cs = ys ++ '-' :: (ms ++ '-' :: ds) ∧ ys.all isDigitCh = true ∧ ys.length = 4 ∧
      DigitChunk12 ms ∧ DigitChunk12 ds := by
  simp only [isoShape?] at h
  by_cases h4 : (cs.takeWhile isDigitCh).length = 4
  case neg => rw [if_neg h4] at h; cases h
  rw [if_pos h4] at h
  rcases hd1 : cs.dropWhile isDigitCh with _ | ⟨c1, r2⟩
  · rw [hd1] at h; cases h
  rw [hd1] at h
  split at h
  · rename_i r2x heq
    injection heq with hc1 hr2
    subst hr2
    by_cases hg1 : 1 ≤ (r2.takeWhile isDigitCh).length ∧
        (r2.takeWhile isDigitCh).length ≤ 2
    case neg => rw [if_neg hg1] at h; cases h
    rw [if_pos hg1] at h
    rcases hd2 : r2.dropWhile isDigitCh with _ | ⟨c2, r4⟩
    · rw [hd2] at h; cases h
    rw [hd2] at h
    split at h
    · rename_i r4x heq2
      injection heq2 with hc2 hr4
      subst hr4
      by_cases hg2 : 1 ≤ (r4.takeWhile isDigitCh).length ∧
          (r4.takeWhile isDigitCh).length ≤ 2 ∧ r4.dropWhile isDigitCh = []
      case neg => rw [if_neg hg2] at h; cases h
      rw [if_pos hg2] at h
      injection h with h2
      injection h2 with he1 h3
      injection h3 with he2 he3
      subst he1
      subst he2
      subst he3
      subst hc1
      subst hc2
      refine ⟨?_, List.all_takeWhile, h4, ⟨List.all_takeWhile, hg1.1, hg1.2⟩,
        ⟨List.all_takeWhile, hg2.1, hg2.2.1⟩⟩
      have e1 : cs = cs.takeWhile isDigitCh ++ cs.dropWhile isDigitCh :=
        (List.takeWhile_append_dropWhile isDigitCh cs).symm
      have e2 : r2 = r2.takeWhile isDigitCh ++ r2.dropWhile isDigitCh :=
        (List.takeWhile_append_dropWhile isDigitCh r2).symm
      have e3 : r4 = r4.takeWhile isDigitCh ++ r4.dropWhile isDigitCh :=
        (List.takeWhile_append_dropWhile isDigitCh r4).symm
      rw [hd2] at e2
      rw [hg2.2.2, List.append_nil] at e3
      calc cs = cs.takeWhile isDigitCh ++ cs.dropWhile isDigitCh := e1
        _ = cs.takeWhile isDigitCh ++ ('-' :: r2) := by rw [hd1]
        _ = cs.takeWhile isDigitCh ++ ('-' :: (r2.takeWhile isDigitCh ++ '-' :: r4)) := by
            rw [← e2]
        _ = cs.takeWhile isDigitCh ++ ('-' :: (r2.takeWhile isDigitCh ++ '-' ::
            r4.takeWhile isDigitCh)) := by rw [← e3]
    · cases h
  · cases h

theorem slashShape?_inv {cs ms ds : List Char} {yOpt : Option (List Char)}
    (h : slashShape? cs = some (ms, ds, yOpt)) :
    DigitChunk12 ms ∧ DigitChunk12 ds ∧
      ((yOpt = none ∧ cs = ms ++ '/' :: ds) ∨
       (∃ ys, yOpt = some ys ∧ ys.all isDigitCh = true ∧ 2 ≤ ys.length ∧
         ys.length ≤ 4 ∧ cs = ms ++ '/' :: (ds ++ '/' :: ys))) := by
  simp only [slashShape?] at h
  by_cases hg1 : 1 ≤ (cs.takeWhile isDigitCh).length ∧ (cs.takeWhile isDigitCh).length ≤ 2
  case neg => rw [if_neg hg1] at h; cases h
  rw [if_pos hg1] at h
  rcases hd1 : cs.dropWhile isDigitCh with _ | ⟨c1, r2⟩
  · rw [hd1] at h; cases h
  rw [hd1] at h
  split at h
  · rename_i r2x heq
    injection heq with hc1 hr2
    subst hr2
    by_cases hg2 : 1 ≤ (r2.takeWhile isDigitCh).length ∧ (r2.takeWhile isDigitCh).length ≤ 2
    case neg => rw [if_neg hg2] at h; cases h
    rw [if_pos hg2] at h
    rcases hd2 : r2.dropWhile isDigitCh with _ | ⟨c2, r4⟩
    · rw [hd2] at h
      injection h with h2
      injection h2 with he1 h3
      injection h3 with he2 he3
      subst he1
      subst he2
      subst he3
      subst hc1
      refine ⟨⟨List.all_takeWhile, hg1.1, hg1.2⟩, ⟨List.all_takeWhile, hg2.1, hg2.2⟩,
        Or.inl ⟨rfl, ?_⟩⟩
      have e1 : cs = cs.takeWhile isDigitCh ++ cs.dropWhile isDigitCh :=
        (List.takeWhile_append_dropWhile isDigitCh cs).symm
      have e2 : r2 = r2.takeWhile isDigitCh ++ r2.dropWhile isDigitCh :=
        (List.takeWhile_append_dropWhile isDigitCh r2).symm
      rw [hd2, List.append_nil] at e2
      calc cs = cs.takeWhile isDigitCh ++ cs.dropWhile isDigitCh := e1
        _ = cs.takeWhile isDigitCh ++ ('/' :: r2) := by rw [hd1]
        _ = cs.takeWhile isDigitCh ++ ('/' :: r2.takeWhile isDigitCh) := by rw [← e2]
    · rw [hd2] at h
      split at h
      · rename_i heq2
        exact absurd heq2 (List.cons_ne_nil c2 r4)
      · rename_i r4x heq2
        injection heq2 with hc2 hr4
        subst hr4
        by_cases hg3 : (2 ≤ (r4.takeWhile isDigitCh).length ∧
            (r4.takeWhile isDigitCh).length ≤ 4) ∧ r4.dropWhile isDigitCh = []
        case neg => rw [if_neg hg3] at h; cases h
        rw [if_pos hg3] at h
        injection h with h2
        injection h2 with he1 h3
        injection h3 with he2 he3
        subst he1
        subst he2
        subst he3
        subst hc1
        subst hc2
        refine ⟨⟨List.all_takeWhile, hg1.1, hg1.2⟩, ⟨List.all_takeWhile, hg2.1, hg2.2⟩,
          Or.inr ⟨r4.takeWhile isDigitCh, rfl, List.all_takeWhile, hg3.1.1, hg3.1.2, ?_⟩⟩
        have e1 : cs = cs.takeWhile isDigitCh ++ cs.dropWhile isDigitCh :=
          (List.takeWhile_append_dropWhile isDigitCh cs).symm
        have e2 : r2 = r2.takeWhile isDigitCh ++ r2.dropWhile isDigitCh :=
          (List.takeWhile_append_dropWhile isDigitCh r2).symm
        have e3 : r4 = r4.takeWhile isDigitCh ++ r4.dropWhile isDigitCh :=
          (List.takeWhile_append_dropWhile isDigitCh r4).symm
        rw [hd2] at e2
        rw [hg3.2, List.append_nil] at e3
        calc cs = cs.takeWhile isDigitCh ++ cs.dropWhile isDigitCh := e1
          _ = cs.takeWhile isDigitCh ++ ('/' :: r2) := by rw [hd1]
          _ = cs.takeWhile isDigitCh ++ ('/' :: (r2.takeWhile isDigitCh ++ '/' :: r4)) := by
              rw [← e2]
          _ = cs.takeWhile isDigitCh ++ ('/' :: (r2.takeWhile isDigitCh ++ '/' ::
              r4.takeWhile isDigitCh)) := by rw [← e3]
      · cases h
  · cases h

theorem monthDayShape?_inv {cs ms ds : List Char}
    (h : monthDayShape? cs = some (ms, ds)) :
    DigitChunk12 ms ∧ DigitChunk12 ds ∧
      ∃ rest, cs = ms ++ '月' :: (ds ++ '日' :: rest) := by
  simp only [monthDayShape?] at h
  by_cases hg1 : 1 ≤ (cs.takeWhile isDigitCh).length ∧ (cs.takeWhile isDigitCh).length ≤ 2
  case neg => rw [if_neg hg1] at h; cases h
  rw [if_pos hg1] at h
  rcases hd1 : cs.dropWhile isDigitCh with _ | ⟨c1, r2⟩
  · rw [hd1] at h; cases h
  rw [hd1] at h
  split at h
  · rename_i r2x heq
    injection heq with hc1 hr2
    subst hr2
    by_cases hg2 : 1 ≤ (r2.takeWhile isDigitCh).length ∧ (r2.takeWhile isDigitCh).length ≤ 2
    case neg => rw [if_neg hg2] at h; cases h
    rw [if_pos hg2] at h
    rcases hd2 : r2.dropWhile isDigitCh with _ | ⟨c2, r4⟩
    · rw [hd2] at h; cases h
    rw [hd2] at h
    split at h
    · rename_i r4x heq2
      injection heq2 with hc2 hr4
      injection h with h2
      injection h2 with he1 he2
      subst he1
      subst he2
      subst hc1
      subst hc2
      refine ⟨⟨List.all_takeWhile, hg1.1, hg1.2⟩, ⟨List.all_takeWhile, hg2.1, hg2.2⟩, r4, ?_⟩
      have e1 : cs = cs.takeWhile isDigitCh ++ cs.dropWhile isDigitCh :=
        (List.takeWhile_append_dropWhile isDigitCh cs).symm
      have e2 : r2 = r2.takeWhile isDigitCh ++ r2.dropWhile isDigitCh :=
        (List.takeWhile_append_dropWhile isDigitCh r2).symm
      rw [hd2] at e2
      calc cs = cs.takeWhile isDigitCh ++ cs.dropWhile isDigitCh := e1
        _ = cs.takeWhile isDigitCh ++ ('月' :: r2) := by rw [hd1]
        _ = cs.takeWhile isDigitCh ++ ('月' :: (r2.takeWhile isDigitCh ++ '日' :: r4)) := by
            rw [← e2]
    · cases h
  · cases h

/-- C5 (amended): `_to_iso_date` never fails and normalizes exactly the three
regex families.  `YYYY-M-D` keeps its four-digit year and zero-pads month and
day; `M/D` uses the current year; `M/D/Y...` accepts year groups of two, three
or FOUR digits — contrary to the spec, the century completion is applied to
the year's VALUE, not its digit count: any year value below 50 is mapped to
the 2000s and any value from 50 to 99 to the 1900s (so `1/2/023` becomes
`2023-01-02`), while values of 100 and above are kept verbatim (so `1/2/123`
becomes `123-01-02`); `M月D日...` uses the current year and ignores trailing
text.  Every input matching none of the shapes, including the empty string,
yields `none`. -/
theorem claim_C5_date_normalization (t : Nat) (ht : 100 ≤ t) :
    toIsoDate t "" = none ∧
    (∀ ys ms ds : List Char, ys.all isDigitCh = true → ys.length = 4 →
      DigitChunk12 ms → DigitChunk12 ds →
      toIsoDate t (String.mk (ys ++ '-' :: (ms ++ '-' :: ds))) =
        some (String.mk (ys ++ '-' :: (padChars 2 (chainVal ms) ++ '-' ::
          padChars 2 (chainVal ds))))) ∧
    (∀ ms ds : List Char, DigitChunk12 ms → DigitChunk12 ds →
      toIsoDate t (String.mk (ms ++ '/' :: ds)) =
        some (String.mk (natStrChars t ++ '-' :: (padChars 2 (chainVal ms) ++ '-' ::
          padChars 2 (chainVal ds))))) ∧
    (∀ ms ds ys : List Char, DigitChunk12 ms → DigitChunk12 ds →
      ys.all isDigitCh = true → 2 ≤ ys.length → ys.length ≤ 4 →
      toIsoDate t (String.mk (ms ++ '/' :: (ds ++ '/' :: ys))) =
        some (String.mk (natStrChars
          (if chainVal ys < 100 then
            (if chainVal ys < 50 then chainVal ys + 2000 else chainVal ys + 1900)
          else chainVal ys) ++ '-' :: (padChars 2 (chainVal ms) ++ '-' ::
          padChars 2 (chainVal ds))))) ∧
    (∀ ms ds rest : List Char, DigitChunk12 ms → DigitChunk12 ds →
      (∀ c ∈ rest, isSpaceCh c = false) →
      toIsoDate t (String.mk (ms ++ '月' :: (ds ++ '日' :: rest))) =
        some (String.mk (natStrChars t ++ '-' :: (padChars 2 (chainVal ms) ++ '-' ::
          padChars 2 (chainVal ds))))) ∧
    (∀ s : String, toIsoDate t s ≠ none →
      (∃ ys ms ds : List Char, stripChars s.data = ys ++ '-' :: (ms ++ '-' :: ds) ∧
        ys.all isDigitCh = true ∧ ys.length = 4 ∧ DigitChunk12 ms ∧ DigitChunk12 ds) ∨
      (∃ ms ds : List Char, DigitChunk12 ms ∧ DigitChunk12 ds ∧
        stripChars s.data = ms ++ '/' :: ds) ∨
      (∃ ms ds ys : List Char, DigitChunk12 ms ∧ DigitChunk12 ds ∧
        ys.all isDigitCh = true ∧ 2 ≤ ys.length ∧ ys.length ≤ 4 ∧
        stripChars s.data = ms ++ '/' :: (ds ++ '/' :: ys)) ∨
      (∃ ms ds rest : List Char, DigitChunk12 ms ∧ DigitChunk12 ds ∧
        stripChars s.data = ms ++ '月' :: (ds ++ '日' :: rest))) := by
  refine ⟨rfl, ?_, ?_, ?_, ?_, ?_⟩
  · intro ys ms ds hy hy4 hm hd
    have hne : ys ++ '-' :: (ms ++ '-' :: ds) ≠ [] := by simp
    have hns : ∀ c ∈ ys ++ '-' :: (ms ++ '-' :: ds), isSpaceCh c = false := by
      intro c hc
      simp only [List.mem_append, List.mem_cons] at hc
      rcases hc with hc | hc | hc | hc | hc
      · exact digit_not_space (List.all_eq_true.mp hy c hc)
      · subst hc; decide
      · exact digit_not_space (List.all_eq_true.mp hm.1 c hc)
      · subst hc; decide
      · exact digit_not_space (List.all_eq_true.mp hd.1 c hc)
    rw [toIsoDate_strip_id hne hns, isoShape?_mk hy hy4 hm hd]
  · intro ms ds hm hd
    have hne : ms ++ '/' :: ds ≠ [] := by simp
    have hns : ∀ c ∈ ms ++ '/' :: ds, isSpaceCh c = false := by
      intro c hc
      simp only [List.mem_append, List.mem_cons] at hc
      rcases hc with hc | hc | hc
      · exact digit_not_space (List.all_eq_true.mp hm.1 c hc)
      · subst hc; decide
      · exact digit_not_space (List.all_eq_true.mp hd.1 c hc)
    rw [toIsoDate_strip_id hne hns]
    have hlen : ms.length ≠ 4 := by have := hm.2.2; omega
    rw [isoShape?_len_ne4 hm.1 (by decide) hlen]
    rw [slashShape?_mk_noYear hm hd]
    dsimp only
    simp only [centuryFix]
    rw [if_neg (by omega)]
  · intro ms ds ys hm hd hy hy2 hy4
    have hne : ms ++ '/' :: (ds ++ '/' :: ys) ≠ [] := by simp
    have hns : ∀ c ∈ ms ++ '/' :: (ds ++ '/' :: ys), isSpaceCh c = false := by
      intro c hc
      simp only [List.mem_append, List.mem_cons] at hc
      rcases hc with hc | hc | hc | hc | hc
      · exact digit_not_space (List.all_eq_true.mp hm.1 c hc)
      · subst hc; decide
      · exact digit_not_space (List.all_eq_true.mp hd.1 c hc)
      · subst hc; decide
      · exact digit_not_space (List.all_eq_true.mp hy c hc)
    rw [toIsoDate_strip_id hne hns]
    have hlen : ms.length ≠ 4 := by have := hm.2.2; omega
    rw [isoShape?_len_ne4 hm.1 (by decide) hlen]
    rw [slashShape?_mk_year hm hd hy hy2 hy4]
    dsimp only
    simp only [centuryFix]
  · intro ms ds rest hm hd hrest
    have hne : ms ++ '月' :: (ds ++ '日' :: rest) ≠ [] := by simp
    have hns : ∀ c ∈ ms ++ '月' :: (ds ++ '日' :: rest), isSpaceCh c = false := by
      intro c hc
      simp only [List.mem_append, List.mem_cons] at hc
      rcases hc with hc | hc | hc | hc | hc
      · exact digit_not_space (List.all_eq_true.mp hm.1 c hc)
      · subst hc; decide
      · exact digit_not_space (List.all_eq_true.mp hd.1 c hc)
      · subst hc; decide
      · exact hrest c hc
    rw [toIsoDate_strip_id hne hns]
    have hlen : ms.length ≠ 4 := by have := hm.2.2; omega
    rw [isoShape?_len_ne4 hm.1 (by decide) hlen]
    rw [slashShape?_not_slash hm.1 (by decide) (by decide)]
    rw [monthDayShape?_mk hm hd]
  · intro s hne
    simp only [toIsoDate] at hne
    by_cases h0 : s = ""
    · rw [if_pos h0] at hne
      exact absurd rfl hne
    rw [if_neg h0] at hne
    by_cases h1 : stripChars s.data = []
    · rw [if_pos h1] at hne
      exact absurd rfl hne
    rw [if_neg h1] at hne
    rcases hiso : isoShape? (stripChars s.data) with _ | ⟨ys, ms, ds⟩
    · rw [hiso] at hne
      rcases hsl : slashShape? (stripChars s.data) with _ | ⟨ms, ds, yOpt⟩
      · rw [hsl] at hne
        rcases hmd : monthDayShape? (stripChars s.data) with _ | ⟨ms, ds⟩
        · rw [hmd] at hne
          exact absurd rfl hne
        · obtain ⟨hm, hd, rest, hcs⟩ := monthDayShape?_inv hmd
          exact Or.inr (Or.inr (Or.inr ⟨ms, ds, rest, hm, hd, hcs⟩))
      · obtain ⟨hm, hd, hcase⟩ := slashShape?_inv hsl
        rcases hcase with ⟨hyn, hcs⟩ | ⟨ys, hys, hall, hy2, hy4, hcs⟩
        · exact Or.inr (Or.inl ⟨ms, ds, hm, hd, hcs⟩)
        · exact Or.inr (Or.inr (Or.inl ⟨ms, ds, ys, hm, hd, hall, hy2, hy4, hcs⟩))
    · obtain ⟨hcs, hall, hlen, hm, hd⟩ := isoShape?_inv hiso
      exact Or.inl ⟨ys, ms, ds, hcs, hall, hlen, hm, hd⟩

theorem claim_C5_witness :
    toIsoDate 2026 "1/2/87" = some "1987-01-02" := by
  have h := (claim_C5_date_normalization 2026 (by decide)).2.2.2.1 ['1'] ['2'] ['8', '7']
    (by decide) (by decide) (by decide) (by decide) (by decide)
  have e : String.mk (['1'] ++ '/' :: (['2'] ++ '/' :: ['8', '7'])) = "1/2/87" := rfl
  rw [e] at h
  rw [h]
  decide
